import Mathlib

/-!
# Semi-function-type syntax of the Linalg transform ops

A shallow embedding of `mlir/lib/Dialect/Linalg/TransformOps/Syntax.cpp`:
the two overloads of `parseSemiFunctionType` and the two overloads of
`printSemiFunctionType`, followed by theorems about them.

The C++ functions work on an `OpAsmParser` (a forward-only token stream that
also records diagnostics) and an `OpAsmPrinter` (a text sink).  Neither class
is defined in `Syntax.cpp`; the operations used by the four functions are
modelled below, each one marked as such.  The four functions themselves are
translated statement by statement, with the reference parameters turned into
explicit inputs (value on entry) and outputs (value on exit).

The options record of `llvm/tools/llvm-cov/CoverageViewOptions.h` and its
derived queries come first, in the namespace `llvm`.

A C++ `Type` is a nullable handle.  A non-null handle is an element of an
arbitrary type `Ty`; a nullable one is an `Option Ty`, `none` being `nullptr`.
-/

namespace llvm

/-! ## `CoverageViewOptions` (`llvm/tools/llvm-cov/CoverageViewOptions.h`) -/

/-- The enumeration `CoverageViewOptions::OutputFormat`. -/
inductive OutputFormat where
  | Text : OutputFormat
  | HTML : OutputFormat
  | Lcov : OutputFormat
  deriving DecidableEq, Repr

/-- The enumeration `CoverageViewOptions::BranchOutputType`. -/
inductive BranchOutputType where
  | Count : BranchOutputType
  | Percent : BranchOutputType
  | Off : BranchOutputType
  deriving DecidableEq, Repr

/-- The options record `CoverageViewOptions`, field by field in the order of the
header.  A `std::string` is a `String`, the `std::vector<std::string>` a list of
them, `uint32_t` and `unsigned` are natural numbers (no arithmetic is done on
them here) and the two `float` watermarks are `Float`s. -/
structure CoverageViewOptions where
  Debug : Bool
  Colors : Bool
  ShowLineNumbers : Bool
  ShowLineStats : Bool
  ShowRegionMarkers : Bool
  ShowMCDC : Bool
  ShowBranchCounts : Bool
  ShowBranchPercents : Bool
  ShowExpandedRegions : Bool
  ShowFunctionInstantiations : Bool
  UnifyFunctionInstantiations : Bool
  ShowFullFilenames : Bool
  ShowBranchSummary : Bool
  ShowMCDCSummary : Bool
  ShowRegionSummary : Bool
  ShowInstantiationSummary : Bool
  ShowDirectoryCoverage : Bool
  ExportSummaryOnly : Bool
  SkipExpansions : Bool
  SkipFunctions : Bool
  SkipBranches : Bool
  BinaryCounters : Bool
  Format : OutputFormat
  ShowBranches : BranchOutputType
  ShowOutputDirectory : String
  DemanglerOpts : List String
  TabSize : Nat
  ProjectTitle : String
  CreatedTimeStr : String
  NumThreads : Nat
  CompilationDirectory : String
  HighCovWatermark : Float
  LowCovWatermark : Float

/-- The member `bool hasOutputDirectory() const`. -/
def CoverageViewOptions.hasOutputDirectory (self : CoverageViewOptions) : Bool :=
  !self.ShowOutputDirectory.isEmpty

/-- The member `bool hasDemangler() const`. -/
def CoverageViewOptions.hasDemangler (self : CoverageViewOptions) : Bool :=
  !self.DemanglerOpts.isEmpty

/-- The member `bool hasProjectTitle() const`. -/
def CoverageViewOptions.hasProjectTitle (self : CoverageViewOptions) : Bool :=
  !self.ProjectTitle.isEmpty

/-- The member `bool hasCreatedTime() const`. -/
def CoverageViewOptions.hasCreatedTime (self : CoverageViewOptions) : Bool :=
  !self.CreatedTimeStr.isEmpty

/-- An options record with an output directory and a project title, without
demangler and without created time. -/
def exampleOptions : CoverageViewOptions :=
  ⟨false, true, true, false, false, false, false, false, false, false, false, false, false,
    false, false, false, false, false, false, false, false, false,
    OutputFormat.HTML, BranchOutputType.Off, "out", [], 2, "demo", "", 1, "", 0.0, 0.0⟩

end llvm

namespace mlir

/-! ## Token stream -/

/-- Modelled from the spec: the tokens of the clause grammar, which the lexer of
the repository (not part of `Syntax.cpp`) produces.  The spec lists them as
`(`, `)`, `->`, `,` and Type; a Type is one opaque token.  Any other character
of the input is kept as an `other` token. -/
inductive Token (Ty : Type) where
  | l_paren : Token Ty
  | r_paren : Token Ty
  | arrow : Token Ty
  | comma : Token Ty
  | type (t : Ty) : Token Ty
  | other (c : Char) : Token Ty
  deriving DecidableEq, Repr

/-- Modelled from the spec: the diagnostics the stream emits when a required
element is absent (the stream, not `Syntax.cpp`, formats and reports them). -/
inductive Diagnostic where
  | expectedLParen : Diagnostic
  | expectedRParen : Diagnostic
  | expectedArrow : Diagnostic
  | expectedType : Diagnostic
  deriving DecidableEq, Repr

/-- The two values of the C++ `ParseResult`. -/
inductive ParseResult where
  | success : ParseResult
  | failure : ParseResult
  deriving DecidableEq, Repr

/-- The C++ `ParseResult::failed()`. -/
def ParseResult.failed : ParseResult → Bool
  | .success => false
  | .failure => true

/-- The C++ `ParseResult::succeeded()`. -/
def ParseResult.succeeded : ParseResult → Bool
  | .success => true
  | .failure => false

/-- A C++ assignment to a variable or through a reference: the value held
before is dropped. -/
@[simp] def assign {α : Type} (_old new : α) : α := new

/-- The C++ `failure(bool isFailure)`: a failure exactly when the flag is set. -/
def failure (isFailure : Bool) : ParseResult :=
  if isFailure then ParseResult.failure else ParseResult.success

/-- Modelled from the spec: the state of the external token stream, that is the
tokens not yet consumed and the diagnostics emitted so far. -/
structure OpAsmParser (Ty : Type) where
  tokens : List (Token Ty)
  diagnostics : List Diagnostic
  deriving DecidableEq, Repr

variable {Ty : Type}

/-- The stream with one more diagnostic emitted. -/
def OpAsmParser.emitError (parser : OpAsmParser Ty) (d : Diagnostic) : OpAsmParser Ty :=
  ⟨parser.tokens, parser.diagnostics ++ [d]⟩

/-- Modelled from the spec: `tryConsumeLeftParen`, peek-and-conditionally-consume;
absence of the token is a plain failure that emits nothing and consumes nothing. -/
def parseOptionalLParen (parser : OpAsmParser Ty) : ParseResult × OpAsmParser Ty :=
  match parser.tokens with
  | Token.l_paren :: rest => (ParseResult.success, ⟨rest, parser.diagnostics⟩)
  | _ => (ParseResult.failure, parser)

/-- Modelled from the spec: `consumeLeftParen`, which fails, with a diagnostic,
when the next token is not `(`. -/
def parseLParen (parser : OpAsmParser Ty) : ParseResult × OpAsmParser Ty :=
  match parser.tokens with
  | Token.l_paren :: rest => (ParseResult.success, ⟨rest, parser.diagnostics⟩)
  | _ => (ParseResult.failure, parser.emitError Diagnostic.expectedLParen)

/-- Modelled from the spec: `consumeRightParen`. -/
def parseRParen (parser : OpAsmParser Ty) : ParseResult × OpAsmParser Ty :=
  match parser.tokens with
  | Token.r_paren :: rest => (ParseResult.success, ⟨rest, parser.diagnostics⟩)
  | _ => (ParseResult.failure, parser.emitError Diagnostic.expectedRParen)

/-- Modelled from the spec: `consumeArrow`. -/
def parseArrow (parser : OpAsmParser Ty) : ParseResult × OpAsmParser Ty :=
  match parser.tokens with
  | Token.arrow :: rest => (ParseResult.success, ⟨rest, parser.diagnostics⟩)
  | _ => (ParseResult.failure, parser.emitError Diagnostic.expectedArrow)

/-- Modelled from the spec: `parseType`, which reads one Type token.  The second
component is the value left in the `Type &` argument: the type read, or null
after a failure. -/
def parseType (parser : OpAsmParser Ty) : ParseResult × Option Ty × OpAsmParser Ty :=
  match parser.tokens with
  | Token.type t :: rest => (ParseResult.success, some t, ⟨rest, parser.diagnostics⟩)
  | _ => (ParseResult.failure, none, parser.emitError Diagnostic.expectedType)

/-- The token-level loop of `parseTypeList`: one Type, then for as long as a
comma follows, the comma and one more Type.  The types read are appended to
`result`, and stay there when a later element is missing. -/
def parseTypeListTokens : List (Token Ty) → List Ty → Bool × List Ty × List (Token Ty)
  | Token.type t :: rest, result =>
    match rest with
    | Token.comma :: rest' => parseTypeListTokens rest' (result ++ [t])
    | _ => (true, result ++ [t], rest)
  | rest, result => (false, result, rest)

/-- Modelled from the spec: `parseTypeList`, a comma-separated list of one or
more Types that stops at the first token that is not a comma after a Type.  The
types are appended to the caller's vector as they are read; when an element is
missing the call fails with a diagnostic and the types read so far are still in
the vector. -/
def parseTypeList (parser : OpAsmParser Ty) (result : List Ty) :
    ParseResult × List Ty × OpAsmParser Ty :=
  match parseTypeListTokens parser.tokens result with
  | (true, result', rest) => (ParseResult.success, result', ⟨rest, parser.diagnostics⟩)
  | (false, result', rest) =>
    (ParseResult.failure, result',
      OpAsmParser.emitError ⟨rest, parser.diagnostics⟩ Diagnostic.expectedType)

/-! ## Text sink -/

/-- Modelled from the spec: one unit of printed output, a character of literal
text or a Type, whose own text is produced by the sink and is opaque here. -/
inductive OutItem (Ty : Type) where
  | char (c : Char) : OutItem Ty
  | type (t : Ty) : OutItem Ty
  deriving DecidableEq, Repr

/-- Modelled from the spec: the external text sink, as the output written so far. -/
structure OpAsmPrinter (Ty : Type) where
  out : List (OutItem Ty)
  deriving DecidableEq, Repr

/-- The C++ `printer << "literal"`. -/
def OpAsmPrinter.printString (printer : OpAsmPrinter Ty) (s : String) : OpAsmPrinter Ty :=
  ⟨printer.out ++ s.toList.map OutItem.char⟩

/-- The C++ `printer << type`. -/
def OpAsmPrinter.printType (printer : OpAsmPrinter Ty) (t : Ty) : OpAsmPrinter Ty :=
  ⟨printer.out ++ [OutItem.type t]⟩

/-- The elements after the first of an interleaved range: the separator before
each of them. -/
def interleavedRest (printer : OpAsmPrinter Ty) : List Ty → OpAsmPrinter Ty
  | [] => printer
  | t :: ts => interleavedRest ((printer.printString ", ").printType t) ts

/-- Modelled from the spec: `printer << llvm::interleaved(range)` (declared in
`llvm/Support/InterleavedRange.h`), each element separated from the next by
`, `. -/
def interleaved (printer : OpAsmPrinter Ty) : List Ty → OpAsmPrinter Ty
  | [] => printer
  | t :: ts => interleavedRest (printer.printType t) ts

/-- The token of one character of literal text, none for a blank. -/
def lexChar (c : Char) : List (Token Ty) :=
  if c = ' ' then []
  else if c = '(' then [Token.l_paren]
  else if c = ')' then [Token.r_paren]
  else if c = ',' then [Token.comma]
  else [Token.other c]

/-- Modelled from the spec: the lexing of printed text back into the tokens of
the clause grammar.  Blanks separate tokens, `-` followed by `>` is the arrow,
and a printed Type is read back as that Type. -/
def lex : List (OutItem Ty) → List (Token Ty)
  | [] => []
  | OutItem.type t :: rest => Token.type t :: lex rest
  | OutItem.char c :: OutItem.char d :: rest =>
    if c = '-' ∧ d = '>' then Token.arrow :: lex rest
    else lexChar c ++ lex (OutItem.char d :: rest)
  | OutItem.char c :: rest => lexChar c ++ lex rest

/-! ## `parseSemiFunctionType`, single result (`Syntax.cpp` lines 15-31) -/

/-- What a call of the single-result parser leaves behind: the returned
`ParseResult`, the two `Type &` arguments and the stream. -/
structure SingleOutcome (Ty : Type) where
  result : ParseResult
  argumentType : Option Ty
  resultType : Option Ty
  parser : OpAsmParser Ty
  deriving DecidableEq, Repr

/-- What a call of the list-result parser leaves behind: the returned
`ParseResult`, the `Type &` argument, the result vector and the stream. -/
structure ListOutcome (Ty : Type) where
  result : ParseResult
  argumentType : Option Ty
  resultTypes : List Ty
  parser : OpAsmParser Ty
  deriving DecidableEq, Repr

namespace SingleResult

/-- The overload
`parseSemiFunctionType(OpAsmParser &, Type &argumentType, Type &resultType, bool resultOptional)`.
`argumentType` and `resultType` are the values of the two references on entry. -/
def parseSemiFunctionType (parser : OpAsmParser Ty) (argumentType resultType : Option Ty)
    (resultOptional : Bool) : SingleOutcome Ty :=
  -- argumentType = resultType = nullptr;
  let resultType : Option Ty := assign resultType none
  let argumentType : Option Ty := assign argumentType resultType
  -- bool hasLParen = resultOptional ? parseOptionalLParen().succeeded() : parseLParen().succeeded();
  let r := if resultOptional then parseOptionalLParen parser else parseLParen parser
  let hasLParen := r.1.succeeded
  let parser := r.2
  if !resultOptional && !hasLParen then
    ⟨ParseResult.failure, argumentType, resultType, parser⟩
  else
    let r := parseType parser
    let argumentType := assign argumentType r.2.1
    let parser := r.2.2
    if r.1.failed then
      ⟨ParseResult.failure, argumentType, resultType, parser⟩
    else if !hasLParen then
      ⟨ParseResult.success, argumentType, resultType, parser⟩
    else
      -- return failure(parseRParen().failed() || parseArrow().failed() || parseType(resultType).failed());
      let r := parseRParen parser
      let parser := r.2
      if r.1.failed then
        ⟨failure true, argumentType, resultType, parser⟩
      else
        let r := parseArrow parser
        let parser := r.2
        if r.1.failed then
          ⟨failure true, argumentType, resultType, parser⟩
        else
          let r := parseType parser
          let resultType := assign resultType r.2.1
          let parser := r.2.2
          ⟨failure r.1.failed, argumentType, resultType, parser⟩

end SingleResult

namespace ResultList

/-- The overload
`parseSemiFunctionType(OpAsmParser &, Type &argumentType, SmallVectorImpl<Type> &resultTypes)`.
`argumentType` and `resultTypes` are the values of the two references on entry. -/
def parseSemiFunctionType (parser : OpAsmParser Ty) (argumentType : Option Ty)
    (resultTypes : List Ty) : ListOutcome Ty :=
  -- argumentType = nullptr;
  let argumentType : Option Ty := assign argumentType none
  let r := parseOptionalLParen parser
  let hasLParen := r.1.succeeded
  let parser := r.2
  let r := parseType parser
  let argumentType := assign argumentType r.2.1
  let parser := r.2.2
  if r.1.failed then
    ⟨ParseResult.failure, argumentType, resultTypes, parser⟩
  else if !hasLParen then
    ⟨ParseResult.success, argumentType, resultTypes, parser⟩
  else
    -- if (parseRParen().failed() || parseArrow().failed()) return failure();
    let r := parseRParen parser
    let parser := r.2
    if r.1.failed then
      ⟨ParseResult.failure, argumentType, resultTypes, parser⟩
    else
      let r := parseArrow parser
      let parser := r.2
      if r.1.failed then
        ⟨ParseResult.failure, argumentType, resultTypes, parser⟩
      else
        let r := parseOptionalLParen parser
        let parser := r.2
        if r.1.failed then
          -- Type type; if (parseType(type).failed()) return failure();
          let r := parseType parser
          let type : Option Ty := r.2.1
          let parser := r.2.2
          if r.1.failed then
            ⟨ParseResult.failure, argumentType, resultTypes, parser⟩
          else
            -- resultTypes.push_back(type); the type is non-null after a successful parseType
            ⟨ParseResult.success, argumentType, resultTypes ++ type.toList, parser⟩
        else
          -- if (parseTypeList(resultTypes).failed() || parseRParen().failed())
          let r := parseTypeList parser resultTypes
          let resultTypes := r.2.1
          let parser := r.2.2
          if r.1.failed then
            ⟨ParseResult.failure, argumentType, [], parser⟩
          else
            let r := parseRParen parser
            let parser := r.2
            if r.1.failed then
              ⟨ParseResult.failure, argumentType, [], parser⟩
            else
              ⟨ParseResult.success, argumentType, resultTypes, parser⟩

/-- The overload
`printSemiFunctionType(OpAsmPrinter &, Operation *, Type argumentType, TypeRange resultType)`.
The operation pointer is not used by the body and is left out; the argument
type is printed as it is, so it is a non-null handle. -/
def printSemiFunctionType (printer : OpAsmPrinter Ty) (argumentType : Ty)
    (resultType : List Ty) : OpAsmPrinter Ty :=
  let printer := if !resultType.isEmpty then printer.printString "(" else printer
  let printer := printer.printType argumentType
  if resultType.isEmpty then
    printer
  else
    let printer := printer.printString ") -> "
    let printer := if resultType.length > 1 then printer.printString "(" else printer
    let printer := interleaved printer resultType
    if resultType.length > 1 then printer.printString ")" else printer

end ResultList

namespace SingleResult

/-- The overload
`printSemiFunctionType(OpAsmPrinter &, Operation *, Type argumentType, Type resultType, bool resultOptional)`.
The `assert` aborts the call, which then has no output: `none`. -/
def printSemiFunctionType (printer : OpAsmPrinter Ty) (argumentType : Ty)
    (resultType : Option Ty) (resultOptional : Bool) : Option (OpAsmPrinter Ty) :=
  -- assert(resultOptional || resultType != nullptr);
  if !(resultOptional || resultType.isSome) then
    none
  else
    some (ResultList.printSemiFunctionType printer argumentType
      (match resultType with
       | some t => [t]
       | none => []))

end SingleResult

/-! ## The grammars of the spec, as token sequences -/

/-- The tokens of a comma-separated list of Types. -/
def typeListTokens (ts : List Ty) : List (Token Ty) :=
  List.intersperse Token.comma (ts.map Token.type)

/-- The text of a list of Types separated by `, `. -/
def typeListText (ts : List Ty) : List (OutItem Ty) :=
  List.intercalate (", ".toList.map OutItem.char) (ts.map fun t => [OutItem.type t])

/-- The literal text `s` as output items. -/
def text (s : String) : List (OutItem Ty) :=
  s.toList.map OutItem.char

/-- The first Type token of a stream, if it has one. -/
def firstType : List (Token Ty) → Option Ty
  | [] => none
  | Token.type t :: _ => some t
  | _ :: rest => firstType rest

/-! ## The single-result parser and its post-check -/

namespace SingleResult

/-- The condition of the post-check of line 21, `!resultOptional && !hasLParen`,
with `hasLParen` computed as in lines 19-20: true when the check returns failure. -/
def postCheckFails (parser : OpAsmParser Ty) (resultOptional : Bool) : Bool :=
  let r := if resultOptional then parseOptionalLParen parser else parseLParen parser
  let hasLParen := r.1.succeeded
  !resultOptional && !hasLParen

/-- The single-result parser with the post-check
`if (!resultOptional && !hasLParen) return failure();` removed, as the spec says
an implementer may write it; every other statement is that of
`parseSemiFunctionType`. -/
def parseSemiFunctionTypeWithoutPostCheck (parser : OpAsmParser Ty)
    (argumentType resultType : Option Ty) (resultOptional : Bool) : SingleOutcome Ty :=
  let resultType : Option Ty := assign resultType none
  let argumentType : Option Ty := assign argumentType resultType
  let r := if resultOptional then parseOptionalLParen parser else parseLParen parser
  let hasLParen := r.1.succeeded
  let parser := r.2
  let r := parseType parser
  let argumentType := assign argumentType r.2.1
  let parser := r.2.2
  if r.1.failed then
    ⟨ParseResult.failure, argumentType, resultType, parser⟩
  else if !hasLParen then
    ⟨ParseResult.success, argumentType, resultType, parser⟩
  else
    let r := parseRParen parser
    let parser := r.2
    if r.1.failed then
      ⟨failure true, argumentType, resultType, parser⟩
    else
      let r := parseArrow parser
      let parser := r.2
      if r.1.failed then
        ⟨failure true, argumentType, resultType, parser⟩
      else
        let r := parseType parser
        let resultType := assign resultType r.2.1
        let parser := r.2.2
        ⟨failure r.1.failed, argumentType, resultType, parser⟩

end SingleResult

/-! ## Lemmas on the stream operations -/

theorem lex_char_cons (c : Char) (hc : c ≠ '-') (rest : List (OutItem Ty)) :
    lex (OutItem.char c :: rest) = lexChar c ++ lex rest := by
  rcases rest with _ | ⟨x, rest⟩
  · simp [lex]
  · cases x <;> simp [lex, hc]

theorem lex_arrow_cons (rest : List (OutItem Ty)) :
    lex (OutItem.char '-' :: OutItem.char '>' :: rest) = Token.arrow :: lex rest := by
  simp [lex]

theorem lex_type_cons (t : Ty) (rest : List (OutItem Ty)) :
    lex (OutItem.type t :: rest) = Token.type t :: lex rest := by
  simp [lex]

/-! ## Lemmas on the printer -/

theorem typeListText_cons_cons (t u : Ty) (ts : List Ty) :
    typeListText (t :: u :: ts)
      = OutItem.type t :: OutItem.char ',' :: OutItem.char ' ' :: typeListText (u :: ts) := by
  simp [typeListText, List.intercalate]

theorem interleavedRest_out (ts : List Ty) : ∀ (printer : OpAsmPrinter Ty) (t : Ty),
    (interleavedRest (printer.printType t) ts).out = printer.out ++ typeListText (t :: ts) := by
  induction ts with
  | nil =>
    intro printer t
    simp [interleavedRest, OpAsmPrinter.printType, typeListText, List.intercalate]
  | cons u ts ih =>
    intro printer t
    rw [interleavedRest, ih, typeListText_cons_cons]
    simp [OpAsmPrinter.printType, OpAsmPrinter.printString]

theorem interleaved_out (printer : OpAsmPrinter Ty) (ts : List Ty) :
    (interleaved printer ts).out = printer.out ++ typeListText ts := by
  cases ts with
  | nil => simp [interleaved, typeListText, List.intercalate]
  | cons t ts => rw [interleaved, interleavedRest_out]

/-- C3. The list-result printer chooses its output from the number of results
alone: the bare argument type for no result; `(a) -> r` for one result, the
result without parentheses; and `(a) -> (r1, r2, ..., rn)`, the results in their
given order separated by `, `, for two or more.  The text is appended to what
the sink already holds. -/
theorem C3_print_by_arity (printer : OpAsmPrinter Ty) (a : Ty) :
    (ResultList.printSemiFunctionType printer a []).out = printer.out ++ [OutItem.type a]
    ∧ (∀ r : Ty, (ResultList.printSemiFunctionType printer a [r]).out
        = printer.out ++ (text "(" ++ [OutItem.type a] ++ text ") -> " ++ [OutItem.type r]))
    ∧ (∀ (r1 r2 : Ty) (rs : List Ty),
        (ResultList.printSemiFunctionType printer a (r1 :: r2 :: rs)).out
        = printer.out ++ (text "(" ++ [OutItem.type a] ++ text ") -> (" ++
            List.intercalate (text ", ") ((r1 :: r2 :: rs).map fun r => [OutItem.type r])
            ++ text ")")) := by
  refine ⟨?_, ?_, ?_⟩
  · simp [ResultList.printSemiFunctionType, OpAsmPrinter.printType]
  · intro r
    simp [ResultList.printSemiFunctionType, OpAsmPrinter.printType, OpAsmPrinter.printString,
      interleaved, interleavedRest, text]
  · intro r1 r2 rs
    have hlen : rs.length + 1 + 1 > 1 := by omega
    simp only [ResultList.printSemiFunctionType, List.isEmpty_cons, Bool.not_false, if_true,
      List.length_cons, Bool.false_eq_true, if_false, hlen]
    simp only [OpAsmPrinter.printString, interleaved_out]
    simp [OpAsmPrinter.printType, text, typeListText]

/-! ## Lemmas on lexing the printed text -/

theorem typeListTokens_cons_cons (t u : Ty) (ts : List Ty) :
    typeListTokens (t :: u :: ts) = Token.type t :: Token.comma :: typeListTokens (u :: ts) := by
  simp [typeListTokens]

theorem lex_typeListText_append (ts : List Ty) (tail : List (OutItem Ty)) :
    lex (typeListText ts ++ tail) = typeListTokens ts ++ lex tail := by
  induction ts with
  | nil => simp [typeListText, typeListTokens, List.intercalate]
  | cons t ts ih =>
    cases ts with
    | nil => simp [typeListText, typeListTokens, List.intercalate, lex_type_cons]
    | cons u ts =>
      rw [typeListText_cons_cons, typeListTokens_cons_cons]
      simp only [List.cons_append, lex_type_cons]
      rw [lex_char_cons _ (by decide), lex_char_cons _ (by decide), ih]
      simp [lexChar]

theorem lex_print_nil (a : Ty) :
    lex (ResultList.printSemiFunctionType ⟨[]⟩ a []).out = [Token.type a] := by
  simp [ResultList.printSemiFunctionType, OpAsmPrinter.printType, lex]

theorem lex_print_single (a r : Ty) :
    lex (ResultList.printSemiFunctionType ⟨[]⟩ a [r]).out
      = [Token.l_paren, Token.type a, Token.r_paren, Token.arrow, Token.type r] := by
  simp [ResultList.printSemiFunctionType, OpAsmPrinter.printType, OpAsmPrinter.printString,
    interleaved, interleavedRest, lex, lexChar]

theorem lex_print_many (a r1 r2 : Ty) (rs : List Ty) :
    lex (ResultList.printSemiFunctionType ⟨[]⟩ a (r1 :: r2 :: rs)).out
      = Token.l_paren :: Token.type a :: Token.r_paren :: Token.arrow :: Token.l_paren ::
          (typeListTokens (r1 :: r2 :: rs) ++ [Token.r_paren]) := by
  have hlen : rs.length + 1 + 1 > 1 := by omega
  simp only [ResultList.printSemiFunctionType, List.isEmpty_cons, Bool.not_false, if_true,
    List.length_cons, Bool.false_eq_true, if_false, hlen]
  simp only [OpAsmPrinter.printString, interleaved_out, OpAsmPrinter.printType]
  have h : ∀ tail : List (OutItem Ty),
      lex (OutItem.char '(' :: OutItem.type a :: OutItem.char ')' :: OutItem.char ' ' ::
        OutItem.char '-' :: OutItem.char '>' :: OutItem.char ' ' :: OutItem.char '(' :: tail)
      = Token.l_paren :: Token.type a :: Token.r_paren :: Token.arrow :: Token.l_paren ::
          lex tail := by
    intro tail
    rw [lex_char_cons _ (by decide), lex_type_cons, lex_char_cons _ (by decide),
      lex_char_cons _ (by decide), lex_arrow_cons, lex_char_cons _ (by decide),
      lex_char_cons _ (by decide)]
    simp [lexChar]
  have h2 := h (typeListText (r1 :: r2 :: rs) ++ [OutItem.char ')'])
  rw [lex_typeListText_append] at h2
  simpa [lex, lexChar] using h2

/-! ## Lemmas on `parseTypeList` -/

theorem parseTypeListTokens_typeListTokens (ts : List Ty) :
    ∀ (t : Ty) (rest : List (Token Ty)) (acc : List Ty), rest.head? ≠ some Token.comma →
      parseTypeListTokens (typeListTokens (t :: ts) ++ rest) acc = (true, acc ++ t :: ts, rest) := by
  induction ts with
  | nil =>
    intro t rest acc h
    rcases rest with _ | ⟨x, rest⟩
    · simp [typeListTokens, parseTypeListTokens]
    · cases x <;> simp_all [typeListTokens, parseTypeListTokens]
  | cons u ts ih =>
    intro t rest acc h
    rw [typeListTokens_cons_cons]
    simp only [List.cons_append, parseTypeListTokens]
    have h2 := ih u rest (acc ++ [t]) h
    simpa using h2

theorem parseTypeListTokens_success (toks : List (Token Ty)) (acc : List Ty) :
    ∀ (rs : List Ty) (rest : List (Token Ty)), parseTypeListTokens toks acc = (true, rs, rest) →
      ∃ (t : Ty) (ts : List Ty), toks = typeListTokens (t :: ts) ++ rest ∧ rs = acc ++ t :: ts
        ∧ rest.head? ≠ some Token.comma := by
  induction toks, acc using parseTypeListTokens.induct with
  | case1 t acc rest ih =>
    intro rs rest2 h
    simp only [parseTypeListTokens] at h
    obtain ⟨u, us, h1, h2, h3⟩ := ih rs rest2 h
    refine ⟨t, u :: us, ?_, ?_, h3⟩
    · rw [typeListTokens_cons_cons, h1]; simp
    · rw [h2]; simp
  | case2 t rest acc hne =>
    intro rs rest2 h
    have h' : parseTypeListTokens (Token.type t :: rest) acc = (true, acc ++ [t], rest) := by
      rcases rest with _ | ⟨x, rest⟩
      · simp [parseTypeListTokens]
      · cases x <;> simp_all [parseTypeListTokens]
    rw [h'] at h
    simp only [Prod.mk.injEq, true_and] at h
    obtain ⟨h1, h2⟩ := h
    subst h1 h2
    refine ⟨t, [], by simp [typeListTokens], rfl, ?_⟩
    rcases rest with _ | ⟨x, rest⟩
    · simp
    · intro hx
      simp only [List.head?_cons, Option.some.injEq] at hx
      exact hne rest (by rw [hx])
  | case3 toks acc hne =>
    intro rs rest2 h
    have h' : parseTypeListTokens toks acc = (false, acc, toks) := by
      rcases toks with _ | ⟨x, rest⟩
      · simp [parseTypeListTokens]
      · cases x <;> simp_all [parseTypeListTokens]
    rw [h'] at h
    simp at h

/-! ## Lemmas on the list-result parser -/

theorem list_parse_bare (a : Ty) (rest : List (Token Ty)) (ds : List Diagnostic)
    (a0 : Option Ty) (rs0 : List Ty) :
    ResultList.parseSemiFunctionType ⟨Token.type a :: rest, ds⟩ a0 rs0
      = ⟨ParseResult.success, some a, rs0, ⟨rest, ds⟩⟩ := by
  simp [ResultList.parseSemiFunctionType, parseOptionalLParen, parseType, ParseResult.failed,
    ParseResult.succeeded]

theorem list_parse_one (a b : Ty) (rest : List (Token Ty)) (ds : List Diagnostic)
    (a0 : Option Ty) (rs0 : List Ty) :
    ResultList.parseSemiFunctionType
        ⟨Token.l_paren :: Token.type a :: Token.r_paren :: Token.arrow :: Token.type b :: rest, ds⟩
        a0 rs0
      = ⟨ParseResult.success, some a, rs0 ++ [b], ⟨rest, ds⟩⟩ := by
  simp [ResultList.parseSemiFunctionType, parseOptionalLParen, parseType, parseRParen,
    parseArrow, ParseResult.failed, ParseResult.succeeded]

theorem list_parse_list (a : Ty) (toks rest : List (Token Ty)) (ds : List Diagnostic)
    (a0 : Option Ty) (rs0 rs : List Ty)
    (h : parseTypeListTokens toks rs0 = (true, rs, Token.r_paren :: rest)) :
    ResultList.parseSemiFunctionType
        ⟨Token.l_paren :: Token.type a :: Token.r_paren :: Token.arrow :: Token.l_paren :: toks, ds⟩
        a0 rs0
      = ⟨ParseResult.success, some a, rs, ⟨rest, ds⟩⟩ := by
  simp [ResultList.parseSemiFunctionType, parseOptionalLParen, parseType, parseRParen,
    parseArrow, parseTypeList, h, ParseResult.failed, ParseResult.succeeded]

theorem list_parse_success_inv (parser : OpAsmParser Ty) (a0 : Option Ty) (rs0 : List Ty)
    (h : (ResultList.parseSemiFunctionType parser a0 rs0).result = ParseResult.success) :
    (∃ a rest, parser.tokens = Token.type a :: rest)
    ∨ (∃ a b rest, parser.tokens
        = Token.l_paren :: Token.type a :: Token.r_paren :: Token.arrow :: Token.type b :: rest)
    ∨ (∃ a toks rs rest, parser.tokens
        = Token.l_paren :: Token.type a :: Token.r_paren :: Token.arrow :: Token.l_paren :: toks
        ∧ parseTypeListTokens toks rs0 = (true, rs, Token.r_paren :: rest)) := by
  obtain ⟨toks, ds⟩ := parser
  rcases toks with _ | ⟨t1, toks⟩
  · simp [ResultList.parseSemiFunctionType, parseOptionalLParen, parseType,
      ParseResult.failed, ParseResult.succeeded] at h
  cases t1 <;> try (simp [ResultList.parseSemiFunctionType, parseOptionalLParen, parseType,
      ParseResult.failed, ParseResult.succeeded] at h; done)
  case type a => exact Or.inl ⟨a, toks, rfl⟩
  rcases toks with _ | ⟨t2, toks⟩
  · simp [ResultList.parseSemiFunctionType, parseOptionalLParen, parseType,
      ParseResult.failed, ParseResult.succeeded] at h
  cases t2 <;> try (simp [ResultList.parseSemiFunctionType, parseOptionalLParen, parseType,
      ParseResult.failed, ParseResult.succeeded] at h; done)
  rename_i a
  rcases toks with _ | ⟨t3, toks⟩
  · simp [ResultList.parseSemiFunctionType, parseOptionalLParen, parseType, parseRParen,
      ParseResult.failed, ParseResult.succeeded] at h
  cases t3 <;> try (simp [ResultList.parseSemiFunctionType, parseOptionalLParen, parseType,
      parseRParen, ParseResult.failed, ParseResult.succeeded] at h; done)
  rcases toks with _ | ⟨t4, toks⟩
  · simp [ResultList.parseSemiFunctionType, parseOptionalLParen, parseType, parseRParen,
      parseArrow, ParseResult.failed, ParseResult.succeeded] at h
  cases t4 <;> try (simp [ResultList.parseSemiFunctionType, parseOptionalLParen, parseType,
      parseRParen, parseArrow, ParseResult.failed, ParseResult.succeeded] at h; done)
  rcases toks with _ | ⟨t5, toks⟩
  · simp [ResultList.parseSemiFunctionType, parseOptionalLParen, parseType, parseRParen,
      parseArrow, OpAsmParser.emitError, ParseResult.failed, ParseResult.succeeded] at h
  cases t5 <;> try (simp [ResultList.parseSemiFunctionType, parseOptionalLParen, parseType,
      parseRParen, parseArrow, OpAsmParser.emitError, ParseResult.failed,
      ParseResult.succeeded] at h; done)
  case type b => exact Or.inr (Or.inl ⟨a, b, toks, rfl⟩)
  refine Or.inr (Or.inr ⟨a, toks, ?_⟩)
  rcases hp : parseTypeListTokens toks rs0 with ⟨ok, rs, rest⟩
  cases ok
  · simp [ResultList.parseSemiFunctionType, parseOptionalLParen, parseType, parseRParen,
      parseArrow, parseTypeList, hp, ParseResult.failed, ParseResult.succeeded] at h
  rcases rest with _ | ⟨t6, rest⟩
  · simp [ResultList.parseSemiFunctionType, parseOptionalLParen, parseType, parseRParen,
      parseArrow, parseTypeList, hp, ParseResult.failed, ParseResult.succeeded] at h
  cases t6 <;> try (simp [ResultList.parseSemiFunctionType, parseOptionalLParen, parseType,
      parseRParen, parseArrow, parseTypeList, hp, ParseResult.failed,
      ParseResult.succeeded] at h; done)
  exact ⟨rs, rest, rfl, rfl⟩

/-! ## Lemmas on the single-result parser -/

theorem single_parse_bare (a : Ty) (rest : List (Token Ty)) (ds : List Diagnostic)
    (a0 r0 : Option Ty) :
    SingleResult.parseSemiFunctionType ⟨Token.type a :: rest, ds⟩ a0 r0 true
      = ⟨ParseResult.success, some a, none, ⟨rest, ds⟩⟩ := by
  simp [SingleResult.parseSemiFunctionType, parseOptionalLParen, parseType, ParseResult.failed,
    ParseResult.succeeded]

theorem single_parse_arrow (a b : Ty) (rest : List (Token Ty)) (ds : List Diagnostic)
    (a0 r0 : Option Ty) (resultOptional : Bool) :
    SingleResult.parseSemiFunctionType
        ⟨Token.l_paren :: Token.type a :: Token.r_paren :: Token.arrow :: Token.type b :: rest, ds⟩
        a0 r0 resultOptional
      = ⟨ParseResult.success, some a, some b, ⟨rest, ds⟩⟩ := by
  cases resultOptional <;>
    simp [SingleResult.parseSemiFunctionType, parseOptionalLParen, parseLParen, parseType,
      parseRParen, parseArrow, ParseResult.failed, ParseResult.succeeded, failure]

theorem single_parse_success_inv (parser : OpAsmParser Ty) (a0 r0 : Option Ty)
    (resultOptional : Bool)
    (h : (SingleResult.parseSemiFunctionType parser a0 r0 resultOptional).result
      = ParseResult.success) :
    (resultOptional = true ∧ ∃ a rest, parser.tokens = Token.type a :: rest)
    ∨ (∃ a b rest, parser.tokens
        = Token.l_paren :: Token.type a :: Token.r_paren :: Token.arrow :: Token.type b :: rest) := by
  obtain ⟨toks, ds⟩ := parser
  rcases toks with _ | ⟨t1, toks⟩
  · cases resultOptional <;>
      simp [SingleResult.parseSemiFunctionType, parseOptionalLParen, parseLParen, parseType,
        ParseResult.failed, ParseResult.succeeded] at h
  cases t1 <;> try (cases resultOptional <;>
      simp [SingleResult.parseSemiFunctionType, parseOptionalLParen, parseLParen, parseType,
        ParseResult.failed, ParseResult.succeeded] at h; done)
  case type a =>
    cases resultOptional
    · simp [SingleResult.parseSemiFunctionType, parseOptionalLParen, parseLParen, parseType,
        ParseResult.failed, ParseResult.succeeded] at h
    · exact Or.inl ⟨rfl, a, toks, rfl⟩
  rcases toks with _ | ⟨t2, toks⟩
  · cases resultOptional <;>
      simp [SingleResult.parseSemiFunctionType, parseOptionalLParen, parseLParen, parseType,
        ParseResult.failed, ParseResult.succeeded] at h
  cases t2 <;> try (cases resultOptional <;>
      simp [SingleResult.parseSemiFunctionType, parseOptionalLParen, parseLParen, parseType,
        ParseResult.failed, ParseResult.succeeded] at h; done)
  rename_i a
  rcases toks with _ | ⟨t3, toks⟩
  · cases resultOptional <;>
      simp [SingleResult.parseSemiFunctionType, parseOptionalLParen, parseLParen, parseType,
        parseRParen, ParseResult.failed, ParseResult.succeeded, failure] at h
  cases t3 <;> try (cases resultOptional <;>
      simp [SingleResult.parseSemiFunctionType, parseOptionalLParen, parseLParen, parseType,
        parseRParen, ParseResult.failed, ParseResult.succeeded, failure] at h; done)
  rcases toks with _ | ⟨t4, toks⟩
  · cases resultOptional <;>
      simp [SingleResult.parseSemiFunctionType, parseOptionalLParen, parseLParen, parseType,
        parseRParen, parseArrow, ParseResult.failed, ParseResult.succeeded, failure] at h
  cases t4 <;> try (cases resultOptional <;>
      simp [SingleResult.parseSemiFunctionType, parseOptionalLParen, parseLParen, parseType,
        parseRParen, parseArrow, ParseResult.failed, ParseResult.succeeded, failure] at h; done)
  rcases toks with _ | ⟨t5, toks⟩
  · cases resultOptional <;>
      simp [SingleResult.parseSemiFunctionType, parseOptionalLParen, parseLParen, parseType,
        parseRParen, parseArrow, OpAsmParser.emitError, ParseResult.failed,
        ParseResult.succeeded, failure] at h
  cases t5 <;> try (cases resultOptional <;>
      simp [SingleResult.parseSemiFunctionType, parseOptionalLParen, parseLParen, parseType,
        parseRParen, parseArrow, OpAsmParser.emitError, ParseResult.failed,
        ParseResult.succeeded, failure] at h; done)
  rename_i b
  exact Or.inr ⟨a, b, toks, rfl⟩

/-! ## The claims -/

/-- C1. Round trip of the list-result pair: parsing, with an empty result vector
on entry, the tokens of what the list-result printer emits for an argument type
`a` and results `rs` of any length succeeds, consumes all of them, and returns
`a` and exactly `rs`, in the same order. -/
theorem C1_list_round_trip (a : Ty) (rs : List Ty) (a0 : Option Ty) (ds : List Diagnostic) :
    ResultList.parseSemiFunctionType
        ⟨lex (ResultList.printSemiFunctionType ⟨[]⟩ a rs).out, ds⟩ a0 []
      = ⟨ParseResult.success, some a, rs, ⟨[], ds⟩⟩ := by
  rcases rs with _ | ⟨r1, _ | ⟨r2, rs⟩⟩
  · rw [lex_print_nil, list_parse_bare]
  · rw [lex_print_single, list_parse_one]; simp
  · rw [lex_print_many]
    have h := parseTypeListTokens_typeListTokens (r2 :: rs) r1 [Token.r_paren] []
      (by simp)
    rw [list_parse_list a _ [] ds a0 [] (r1 :: r2 :: rs) (by simpa using h)]

/-- C2. Round trip of the single-result pair: when the precondition of the
printer holds (`resultOptional` is set or the result type is present), the
printer emits a text, and parsing its tokens with the same `resultOptional`
succeeds, consumes all of them, and returns the argument type and the result
type that were printed, the result type null exactly when it was absent. -/
theorem C2_single_round_trip (a : Ty) (r : Option Ty) (resultOptional : Bool)
    (hpre : resultOptional = true ∨ r.isSome = true) (a0 r0 : Option Ty)
    (ds : List Diagnostic) :
    ∃ printer : OpAsmPrinter Ty,
      SingleResult.printSemiFunctionType ⟨[]⟩ a r resultOptional = some printer
      ∧ SingleResult.parseSemiFunctionType ⟨lex printer.out, ds⟩ a0 r0 resultOptional
          = ⟨ParseResult.success, some a, r, ⟨[], ds⟩⟩ := by
  cases r with
  | none =>
    have hro : resultOptional = true := by simpa using hpre
    subst hro
    refine ⟨ResultList.printSemiFunctionType ⟨[]⟩ a [], by simp [SingleResult.printSemiFunctionType], ?_⟩
    rw [lex_print_nil, single_parse_bare]
  | some b =>
    refine ⟨ResultList.printSemiFunctionType ⟨[]⟩ a [b], by simp [SingleResult.printSemiFunctionType], ?_⟩
    rw [lex_print_single, single_parse_arrow]

/-- C2, at concrete inputs: a present result under the mandatory policy and an
absent result under the optional policy. -/
theorem C2_single_round_trip_witness :
    (∃ printer : OpAsmPrinter Nat,
      SingleResult.printSemiFunctionType ⟨[]⟩ 3 (some 5) false = some printer
      ∧ SingleResult.parseSemiFunctionType ⟨lex printer.out, []⟩ none none false
          = ⟨ParseResult.success, some 3, some 5, ⟨[], []⟩⟩)
    ∧ (∃ printer : OpAsmPrinter Nat,
      SingleResult.printSemiFunctionType ⟨[]⟩ 3 none true = some printer
      ∧ SingleResult.parseSemiFunctionType ⟨lex printer.out, []⟩ (some 9) (some 9) true
          = ⟨ParseResult.success, some 3, none, ⟨[], []⟩⟩) :=
  ⟨C2_single_round_trip 3 (some 5) false (Or.inr rfl) none none [],
   C2_single_round_trip 3 none true (Or.inl rfl) (some 9) (some 9) []⟩

/-- C4, as stated, fails: the parser accepts `( 0 ) -> ( 1 )` in full, a
parenthesised list of one type, with results `[1]`, and the printer emits
`( 0 ) -> 1` for them, without the inner parentheses. -/
theorem C4_text_round_trip_counterexample :
    ResultList.parseSemiFunctionType
        (⟨[Token.l_paren, Token.type 0, Token.r_paren, Token.arrow, Token.l_paren, Token.type 1,
          Token.r_paren], []⟩ : OpAsmParser Nat) none []
      = ⟨ParseResult.success, some 0, [1], ⟨[], []⟩⟩
    ∧ lex (ResultList.printSemiFunctionType (⟨[]⟩ : OpAsmPrinter Nat) 0 [1]).out
      = [Token.l_paren, Token.type 0, Token.r_paren, Token.arrow, Token.type 1]
    ∧ lex (ResultList.printSemiFunctionType (⟨[]⟩ : OpAsmPrinter Nat) 0 [1]).out
      ≠ [Token.l_paren, Token.type 0, Token.r_paren, Token.arrow, Token.l_paren, Token.type 1,
          Token.r_paren] := by
  refine ⟨by decide, by decide, by decide⟩

/-- C4, amended. For every token sequence `s` that the list-result parser accepts
in full (success, no token left over, empty result vector on entry), the parsed
argument type is set, and printing it with the parsed results emits exactly `s`,
unless `s` is `( a ) -> ( b )`, a parenthesised list of a single type, for which
the printer emits `( a ) -> b`. -/
theorem C4_text_round_trip_amended (s : List (Token Ty)) (ds : List Diagnostic)
    (a0 : Option Ty)
    (hres : (ResultList.parseSemiFunctionType ⟨s, ds⟩ a0 []).result = ParseResult.success)
    (hfull : (ResultList.parseSemiFunctionType ⟨s, ds⟩ a0 []).parser.tokens = []) :
    ∃ a : Ty, (ResultList.parseSemiFunctionType ⟨s, ds⟩ a0 []).argumentType = some a
      ∧ ((∃ b : Ty, s = [Token.l_paren, Token.type a, Token.r_paren, Token.arrow,
              Token.l_paren, Token.type b, Token.r_paren]
            ∧ lex (ResultList.printSemiFunctionType ⟨[]⟩ a
                (ResultList.parseSemiFunctionType ⟨s, ds⟩ a0 []).resultTypes).out
              = [Token.l_paren, Token.type a, Token.r_paren, Token.arrow, Token.type b])
        ∨ ((∀ b : Ty, s ≠ [Token.l_paren, Token.type a, Token.r_paren, Token.arrow,
              Token.l_paren, Token.type b, Token.r_paren])
            ∧ lex (ResultList.printSemiFunctionType ⟨[]⟩ a
                (ResultList.parseSemiFunctionType ⟨s, ds⟩ a0 []).resultTypes).out = s)) := by
  rcases list_parse_success_inv ⟨s, ds⟩ a0 [] hres with
    ⟨a, rest, hs⟩ | ⟨a, b, rest, hs⟩ | ⟨a, toks, rs, rest, hs, hl⟩
  · simp only at hs
    subst hs
    rw [list_parse_bare] at hfull ⊢
    simp only at hfull
    subst hfull
    exact ⟨a, rfl, Or.inr ⟨by simp, lex_print_nil a⟩⟩
  · simp only at hs
    subst hs
    rw [list_parse_one] at hfull ⊢
    simp only at hfull
    subst hfull
    exact ⟨a, rfl, Or.inr ⟨by simp, by simpa using lex_print_single a b⟩⟩
  · simp only at hs
    subst hs
    rw [list_parse_list a toks rest ds a0 [] rs hl] at hfull ⊢
    simp only at hfull
    subst hfull
    obtain ⟨t, ts, h1, h2, -⟩ := parseTypeListTokens_success toks [] rs _ hl
    simp only [List.nil_append] at h2
    subst h1 h2
    refine ⟨a, rfl, ?_⟩
    cases ts with
    | nil =>
      exact Or.inl ⟨t, by simp [typeListTokens], by simpa using lex_print_single a t⟩
    | cons u us =>
      refine Or.inr ⟨?_, ?_⟩
      · intro b
        simp [typeListTokens]
      · simpa using lex_print_many a t u us

/-- C4 amended, at `( 0 ) -> ( 1 , 2 )`, which is printed back as it was read. -/
theorem C4_text_round_trip_amended_witness :
    ∃ a : Nat, (ResultList.parseSemiFunctionType
        ⟨[Token.l_paren, Token.type 0, Token.r_paren, Token.arrow, Token.l_paren, Token.type 1,
          Token.comma, Token.type 2, Token.r_paren], []⟩ none []).argumentType = some a
      ∧ ((∃ b : Nat, [Token.l_paren, Token.type 0, Token.r_paren, Token.arrow, Token.l_paren,
              Token.type 1, Token.comma, Token.type 2, Token.r_paren]
              = [Token.l_paren, Token.type a, Token.r_paren, Token.arrow,
                Token.l_paren, Token.type b, Token.r_paren]
            ∧ lex (ResultList.printSemiFunctionType ⟨[]⟩ a
                (ResultList.parseSemiFunctionType
                  ⟨[Token.l_paren, Token.type 0, Token.r_paren, Token.arrow, Token.l_paren,
                    Token.type 1, Token.comma, Token.type 2, Token.r_paren], []⟩
                  none []).resultTypes).out
              = [Token.l_paren, Token.type a, Token.r_paren, Token.arrow, Token.type b])
        ∨ ((∀ b : Nat, [Token.l_paren, Token.type 0, Token.r_paren, Token.arrow, Token.l_paren,
              Token.type 1, Token.comma, Token.type 2, Token.r_paren]
              ≠ [Token.l_paren, Token.type a, Token.r_paren, Token.arrow,
                Token.l_paren, Token.type b, Token.r_paren])
            ∧ lex (ResultList.printSemiFunctionType ⟨[]⟩ a
                (ResultList.parseSemiFunctionType
                  ⟨[Token.l_paren, Token.type 0, Token.r_paren, Token.arrow, Token.l_paren,
                    Token.type 1, Token.comma, Token.type 2, Token.r_paren], []⟩
                  none []).resultTypes).out
              = [Token.l_paren, Token.type 0, Token.r_paren, Token.arrow, Token.l_paren,
                  Token.type 1, Token.comma, Token.type 2, Token.r_paren])) :=
  C4_text_round_trip_amended
    [Token.l_paren, Token.type 0, Token.r_paren, Token.arrow, Token.l_paren, Token.type 1,
      Token.comma, Token.type 2, Token.r_paren] [] none (by decide) (by decide)

/-- C5. The list-result parser accepts exactly the ResultList grammar: it
succeeds if and only if the stream begins with a Type, with `( Type ) -> Type`,
or with `( Type ) -> ( Type , ... , Type )` (one or more Types in the list); and
with an empty result vector on entry it then returns the first Type as the
argument type and, respectively, no result, the trailing Type, or the listed
Types in stream order, leaving what follows the clause in the stream. -/
theorem C5_list_accepts_grammar (s : List (Token Ty)) (ds : List Diagnostic)
    (a0 : Option Ty) :
    ((ResultList.parseSemiFunctionType ⟨s, ds⟩ a0 []).result = ParseResult.success ↔
      (∃ a rest, s = Token.type a :: rest)
      ∨ (∃ a b rest, s = Token.l_paren :: Token.type a :: Token.r_paren :: Token.arrow ::
            Token.type b :: rest)
      ∨ (∃ a b bs rest, s = Token.l_paren :: Token.type a :: Token.r_paren :: Token.arrow ::
            Token.l_paren :: (typeListTokens (b :: bs) ++ Token.r_paren :: rest)))
    ∧ (∀ a rest, s = Token.type a :: rest →
        ResultList.parseSemiFunctionType ⟨s, ds⟩ a0 []
          = ⟨ParseResult.success, some a, [], ⟨rest, ds⟩⟩)
    ∧ (∀ a b rest, s = Token.l_paren :: Token.type a :: Token.r_paren :: Token.arrow ::
            Token.type b :: rest →
        ResultList.parseSemiFunctionType ⟨s, ds⟩ a0 []
          = ⟨ParseResult.success, some a, [b], ⟨rest, ds⟩⟩)
    ∧ (∀ a b bs rest, s = Token.l_paren :: Token.type a :: Token.r_paren :: Token.arrow ::
            Token.l_paren :: (typeListTokens (b :: bs) ++ Token.r_paren :: rest) →
        ResultList.parseSemiFunctionType ⟨s, ds⟩ a0 []
          = ⟨ParseResult.success, some a, b :: bs, ⟨rest, ds⟩⟩) := by
  have hbare : ∀ a rest, s = Token.type a :: rest →
      ResultList.parseSemiFunctionType ⟨s, ds⟩ a0 []
        = ⟨ParseResult.success, some a, [], ⟨rest, ds⟩⟩ := by
    intro a rest hs
    rw [hs, list_parse_bare]
  have hone : ∀ a b rest, s = Token.l_paren :: Token.type a :: Token.r_paren :: Token.arrow ::
        Token.type b :: rest →
      ResultList.parseSemiFunctionType ⟨s, ds⟩ a0 []
        = ⟨ParseResult.success, some a, [b], ⟨rest, ds⟩⟩ := by
    intro a b rest hs
    rw [hs, list_parse_one]
    simp
  have hlist : ∀ a b bs rest, s = Token.l_paren :: Token.type a :: Token.r_paren ::
        Token.arrow :: Token.l_paren :: (typeListTokens (b :: bs) ++ Token.r_paren :: rest) →
      ResultList.parseSemiFunctionType ⟨s, ds⟩ a0 []
        = ⟨ParseResult.success, some a, b :: bs, ⟨rest, ds⟩⟩ := by
    intro a b bs rest hs
    have h := parseTypeListTokens_typeListTokens bs b (Token.r_paren :: rest) [] (by simp)
    rw [hs, list_parse_list a _ rest ds a0 [] (b :: bs) (by simpa using h)]
  refine ⟨⟨?_, ?_⟩, hbare, hone, hlist⟩
  · intro hres
    rcases list_parse_success_inv ⟨s, ds⟩ a0 [] hres with
      ⟨a, rest, hs⟩ | ⟨a, b, rest, hs⟩ | ⟨a, toks, rs, rest, hs, hl⟩
    · exact Or.inl ⟨a, rest, hs⟩
    · exact Or.inr (Or.inl ⟨a, b, rest, hs⟩)
    · obtain ⟨t, ts, h1, -, -⟩ := parseTypeListTokens_success toks [] rs _ hl
      simp only at hs
      exact Or.inr (Or.inr ⟨a, t, ts, rest, by rw [hs, h1]⟩)
  · rintro (⟨a, rest, hs⟩ | ⟨a, b, rest, hs⟩ | ⟨a, b, bs, rest, hs⟩)
    · rw [hbare a rest hs]
    · rw [hone a b rest hs]
    · rw [hlist a b bs rest hs]

/-- C6. With `resultOptional` set, the single-result parser accepts exactly the
SingleOptionalResult grammar: it succeeds if and only if the stream begins with
a Type or with `( Type ) -> Type`; in the first case it returns that Type as the
argument type and a null result type, in the second the first Type as the
argument type and the trailing Type as the result type. -/
theorem C6_single_accepts_grammar (s : List (Token Ty)) (ds : List Diagnostic)
    (a0 r0 : Option Ty) :
    ((SingleResult.parseSemiFunctionType ⟨s, ds⟩ a0 r0 true).result = ParseResult.success ↔
      (∃ a rest, s = Token.type a :: rest)
      ∨ (∃ a b rest, s = Token.l_paren :: Token.type a :: Token.r_paren :: Token.arrow ::
            Token.type b :: rest))
    ∧ (∀ a rest, s = Token.type a :: rest →
        SingleResult.parseSemiFunctionType ⟨s, ds⟩ a0 r0 true
          = ⟨ParseResult.success, some a, none, ⟨rest, ds⟩⟩)
    ∧ (∀ a b rest, s = Token.l_paren :: Token.type a :: Token.r_paren :: Token.arrow ::
            Token.type b :: rest →
        SingleResult.parseSemiFunctionType ⟨s, ds⟩ a0 r0 true
          = ⟨ParseResult.success, some a, some b, ⟨rest, ds⟩⟩) := by
  have hbare : ∀ a rest, s = Token.type a :: rest →
      SingleResult.parseSemiFunctionType ⟨s, ds⟩ a0 r0 true
        = ⟨ParseResult.success, some a, none, ⟨rest, ds⟩⟩ := by
    intro a rest hs
    rw [hs, single_parse_bare]
  have harrow : ∀ a b rest, s = Token.l_paren :: Token.type a :: Token.r_paren ::
        Token.arrow :: Token.type b :: rest →
      SingleResult.parseSemiFunctionType ⟨s, ds⟩ a0 r0 true
        = ⟨ParseResult.success, some a, some b, ⟨rest, ds⟩⟩ := by
    intro a b rest hs
    rw [hs, single_parse_arrow]
  refine ⟨⟨?_, ?_⟩, hbare, harrow⟩
  · intro hres
    rcases single_parse_success_inv ⟨s, ds⟩ a0 r0 true hres with
      ⟨-, a, rest, hs⟩ | ⟨a, b, rest, hs⟩
    · exact Or.inl ⟨a, rest, hs⟩
    · exact Or.inr ⟨a, b, rest, hs⟩
  · rintro (⟨a, rest, hs⟩ | ⟨a, b, rest, hs⟩)
    · rw [hbare a rest hs]
    · rw [harrow a b rest hs]

/-- C7. Under the result-mandatory policy (`resultOptional` clear), on every stream
whose first token is not `(`, the empty stream included, the single-result parser
fails, the stream emits the missing-`(` diagnostic and nothing else, no token is
consumed, and the argument type and the result type are both null on exit,
whatever they were on entry. -/
theorem C7_mandatory_missing_delimiter (s : List (Token Ty)) (ds : List Diagnostic)
    (a0 r0 : Option Ty) (hfirst : s.head? ≠ some Token.l_paren) :
    SingleResult.parseSemiFunctionType ⟨s, ds⟩ a0 r0 false
      = ⟨ParseResult.failure, none, none, ⟨s, ds ++ [Diagnostic.expectedLParen]⟩⟩ := by
  rcases s with _ | ⟨t, s⟩
  · simp [SingleResult.parseSemiFunctionType, parseLParen, OpAsmParser.emitError,
      ParseResult.succeeded]
  · cases t <;>
      simp_all [SingleResult.parseSemiFunctionType, parseLParen, OpAsmParser.emitError,
        ParseResult.succeeded]

/-- C7, at a bare Type with both references set on entry. -/
theorem C7_mandatory_missing_delimiter_witness :
    ([Token.type 4] : List (Token Nat)).head? ≠ some Token.l_paren
    ∧ SingleResult.parseSemiFunctionType (⟨[Token.type 4], []⟩ : OpAsmParser Nat)
        (some 1) (some 2) false
      = ⟨ParseResult.failure, none, none, ⟨[Token.type 4], [Diagnostic.expectedLParen]⟩⟩ :=
  ⟨by decide, C7_mandatory_missing_delimiter [Token.type 4] [] (some 1) (some 2) (by decide)⟩

theorem list_parse_failure_results (parser : OpAsmParser Ty) (a0 : Option Ty) (rs0 : List Ty)
    (h : (ResultList.parseSemiFunctionType parser a0 rs0).result = ParseResult.failure) :
    (ResultList.parseSemiFunctionType parser a0 rs0).resultTypes = rs0
    ∨ (ResultList.parseSemiFunctionType parser a0 rs0).resultTypes = [] := by
  simp only [ResultList.parseSemiFunctionType] at h ⊢
  split_ifs at h ⊢ <;> simp_all

/-- C8. No partial result list is retained: whenever the list-result parser,
entered with an empty result vector, fails, the vector is empty on exit. -/
theorem C8_no_partial_list (parser : OpAsmParser Ty) (a0 : Option Ty)
    (hfail : (ResultList.parseSemiFunctionType parser a0 []).result = ParseResult.failure) :
    (ResultList.parseSemiFunctionType parser a0 []).resultTypes = [] := by
  rcases list_parse_failure_results parser a0 [] hfail with h | h <;> exact h

/-- C8, at `( 0 ) -> ( 1 ,`: `parseTypeList` has read `[1]` into the vector when
it fails, and the vector is empty on exit. -/
theorem C8_no_partial_list_witness :
    (parseTypeList (⟨[Token.type 1, Token.comma], []⟩ : OpAsmParser Nat) []).2.1 = [1]
    ∧ (ResultList.parseSemiFunctionType
        (⟨[Token.l_paren, Token.type 0, Token.r_paren, Token.arrow, Token.l_paren, Token.type 1,
          Token.comma], []⟩ : OpAsmParser Nat) none []).result = ParseResult.failure
    ∧ (ResultList.parseSemiFunctionType
        (⟨[Token.l_paren, Token.type 0, Token.r_paren, Token.arrow, Token.l_paren, Token.type 1,
          Token.comma], []⟩ : OpAsmParser Nat) none []).resultTypes = [] :=
  ⟨by decide, by decide, C8_no_partial_list _ none (by decide)⟩

/-- C9. Whenever the list-result parser, entered with an empty result vector,
succeeds, the returned result sequence is empty if and only if no arrow clause
was present: if and only if the stream did not begin with `(` and no `->` is
among the tokens the call consumed.  Whenever an arrow was consumed the sequence
has at least one element. -/
theorem C9_results_empty_iff_no_arrow (s : List (Token Ty)) (ds : List Diagnostic)
    (a0 : Option Ty)
    (hres : (ResultList.parseSemiFunctionType ⟨s, ds⟩ a0 []).result = ParseResult.success) :
    ∃ consumed : List (Token Ty),
      s = consumed ++ (ResultList.parseSemiFunctionType ⟨s, ds⟩ a0 []).parser.tokens
      ∧ ((ResultList.parseSemiFunctionType ⟨s, ds⟩ a0 []).resultTypes = [] ↔
          s.head? ≠ some Token.l_paren)
      ∧ ((ResultList.parseSemiFunctionType ⟨s, ds⟩ a0 []).resultTypes = [] ↔
          s.head? ≠ some Token.l_paren ∧ Token.arrow ∉ consumed)
      ∧ (Token.arrow ∈ consumed →
          1 ≤ (ResultList.parseSemiFunctionType ⟨s, ds⟩ a0 []).resultTypes.length) := by
  rcases list_parse_success_inv ⟨s, ds⟩ a0 [] hres with
    ⟨a, rest, hs⟩ | ⟨a, b, rest, hs⟩ | ⟨a, toks, rs, rest, hs, hl⟩
  · simp only at hs
    subst hs
    rw [list_parse_bare]
    exact ⟨[Token.type a], by simp, by simp, by simp, by simp⟩
  · simp only at hs
    subst hs
    rw [list_parse_one]
    exact ⟨[Token.l_paren, Token.type a, Token.r_paren, Token.arrow, Token.type b],
      by simp, by simp, by simp, by simp⟩
  · simp only at hs
    subst hs
    rw [list_parse_list a toks rest ds a0 [] rs hl]
    obtain ⟨t, ts, h1, h2, -⟩ := parseTypeListTokens_success toks [] rs _ hl
    simp only [List.nil_append] at h2
    subst h1 h2
    exact ⟨Token.l_paren :: Token.type a :: Token.r_paren :: Token.arrow :: Token.l_paren ::
      (typeListTokens (t :: ts) ++ [Token.r_paren]), by simp, by simp, by simp, by simp⟩

/-- C9, at a bare Type followed by an arrow that is not consumed, and at
`( 0 ) -> 1`. -/
theorem C9_results_empty_iff_no_arrow_witness :
    (∃ consumed : List (Token Nat),
      [Token.type 0, Token.arrow] = consumed ++ (ResultList.parseSemiFunctionType
          ⟨[Token.type 0, Token.arrow], []⟩ none []).parser.tokens
      ∧ ((ResultList.parseSemiFunctionType
            ⟨[Token.type 0, Token.arrow], []⟩ none []).resultTypes = [] ↔
          [Token.type 0, Token.arrow].head? ≠ some Token.l_paren)
      ∧ ((ResultList.parseSemiFunctionType
            ⟨[Token.type 0, Token.arrow], []⟩ none []).resultTypes = [] ↔
          [Token.type 0, Token.arrow].head? ≠ some Token.l_paren ∧ Token.arrow ∉ consumed)
      ∧ (Token.arrow ∈ consumed → 1 ≤ (ResultList.parseSemiFunctionType
            ⟨[Token.type 0, Token.arrow], []⟩ none []).resultTypes.length))
    ∧ (ResultList.parseSemiFunctionType
        (⟨[Token.type 0, Token.arrow], []⟩ : OpAsmParser Nat) none []).resultTypes = []
    ∧ (ResultList.parseSemiFunctionType
        (⟨[Token.l_paren, Token.type 0, Token.r_paren, Token.arrow, Token.type 1], []⟩ :
          OpAsmParser Nat) none []).resultTypes = [1] :=
  ⟨C9_results_empty_iff_no_arrow [Token.type 0, Token.arrow] [] none (by decide),
    by decide, by decide⟩

theorem firstType_bare (a : Ty) (rest : List (Token Ty)) :
    firstType (Token.type a :: rest) = some a := by
  simp [firstType]

theorem firstType_paren (a : Ty) (rest : List (Token Ty)) :
    firstType (Token.l_paren :: Token.type a :: rest) = some a := by
  simp [firstType]

/-- C10. For both overloads of `parseSemiFunctionType`, every stream, every value
of `resultOptional` and all values of the references on entry: if the parse
succeeds, the argument type on exit is set (non-null) and is the first Type token
of the stream. -/
theorem C10_argument_type_set (parser : OpAsmParser Ty) (a0 r0 : Option Ty)
    (rs0 : List Ty) :
    (∀ resultOptional : Bool,
      (SingleResult.parseSemiFunctionType parser a0 r0 resultOptional).result
          = ParseResult.success →
        (SingleResult.parseSemiFunctionType parser a0 r0 resultOptional).argumentType ≠ none
        ∧ (SingleResult.parseSemiFunctionType parser a0 r0 resultOptional).argumentType
            = firstType parser.tokens)
    ∧ ((ResultList.parseSemiFunctionType parser a0 rs0).result = ParseResult.success →
        (ResultList.parseSemiFunctionType parser a0 rs0).argumentType ≠ none
        ∧ (ResultList.parseSemiFunctionType parser a0 rs0).argumentType
            = firstType parser.tokens) := by
  obtain ⟨s, ds⟩ := parser
  constructor
  · intro resultOptional hres
    rcases single_parse_success_inv ⟨s, ds⟩ a0 r0 resultOptional hres with
      ⟨hro, a, rest, hs⟩ | ⟨a, b, rest, hs⟩
    · simp only at hs
      subst hs hro
      rw [single_parse_bare]
      simp [firstType_bare]
    · simp only at hs
      subst hs
      rw [single_parse_arrow]
      simp [firstType_paren]
  · intro hres
    rcases list_parse_success_inv ⟨s, ds⟩ a0 rs0 hres with
      ⟨a, rest, hs⟩ | ⟨a, b, rest, hs⟩ | ⟨a, toks, rs, rest, hs, hl⟩
    · simp only at hs
      subst hs
      rw [list_parse_bare]
      simp [firstType_bare]
    · simp only at hs
      subst hs
      rw [list_parse_one]
      simp [firstType_paren]
    · simp only at hs
      subst hs
      rw [list_parse_list a toks rest ds a0 rs0 rs hl]
      simp [firstType_paren]

/-- C10, at `( 3 ) -> 5` for both overloads, the references set to other values on
entry. -/
theorem C10_argument_type_set_witness :
    (SingleResult.parseSemiFunctionType
        (⟨[Token.l_paren, Token.type 3, Token.r_paren, Token.arrow, Token.type 5], []⟩ :
          OpAsmParser Nat) (some 8) (some 9) false).argumentType = some 3
    ∧ (ResultList.parseSemiFunctionType
        (⟨[Token.l_paren, Token.type 3, Token.r_paren, Token.arrow, Token.type 5], []⟩ :
          OpAsmParser Nat) (some 8) [9]).argumentType = some 3
    ∧ firstType ([Token.l_paren, Token.type 3, Token.r_paren, Token.arrow, Token.type 5] :
        List (Token Nat)) = some 3 := by
  have h := C10_argument_type_set
    (⟨[Token.l_paren, Token.type 3, Token.r_paren, Token.arrow, Token.type 5], []⟩ :
      OpAsmParser Nat) (some 8) (some 9) [9]
  have h1 := h.1 false (by decide)
  have h2 := h.2 (by decide)
  refine ⟨?_, ?_, by decide⟩
  · rw [h1.2]; decide
  · rw [h2.2]; decide

/-! ## Lemmas on the failures of the list-result parser -/

theorem list_parse_list_fail (a : Ty) (toks rem : List (Token Ty)) (ds : List Diagnostic)
    (a0 : Option Ty) (rs0 rs : List Ty)
    (h : parseTypeListTokens toks rs0 = (false, rs, rem)) :
    ResultList.parseSemiFunctionType
        ⟨Token.l_paren :: Token.type a :: Token.r_paren :: Token.arrow :: Token.l_paren :: toks, ds⟩
        a0 rs0
      = ⟨ParseResult.failure, some a, [], ⟨rem, ds ++ [Diagnostic.expectedType]⟩⟩ := by
  simp [ResultList.parseSemiFunctionType, parseOptionalLParen, parseType, parseRParen,
    parseArrow, parseTypeList, h, OpAsmParser.emitError, ParseResult.failed,
    ParseResult.succeeded]

theorem list_parse_list_unclosed (a : Ty) (toks rem : List (Token Ty)) (ds : List Diagnostic)
    (a0 : Option Ty) (rs0 rs : List Ty)
    (h : parseTypeListTokens toks rs0 = (true, rs, rem))
    (hrem : rem.head? ≠ some Token.r_paren) :
    ResultList.parseSemiFunctionType
        ⟨Token.l_paren :: Token.type a :: Token.r_paren :: Token.arrow :: Token.l_paren :: toks, ds⟩
        a0 rs0
      = ⟨ParseResult.failure, some a, [], ⟨rem, ds ++ [Diagnostic.expectedRParen]⟩⟩ := by
  rcases rem with _ | ⟨t, rem⟩
  · simp [ResultList.parseSemiFunctionType, parseOptionalLParen, parseType, parseRParen,
      parseArrow, parseTypeList, h, OpAsmParser.emitError, ParseResult.failed,
      ParseResult.succeeded]
  · cases t <;>
      simp_all [ResultList.parseSemiFunctionType, parseOptionalLParen, parseType, parseRParen,
        parseArrow, parseTypeList, OpAsmParser.emitError, ParseResult.failed,
        ParseResult.succeeded]

theorem list_parse_failure_in_list (a : Ty) (toks : List (Token Ty)) (ds : List Diagnostic)
    (a0 : Option Ty) (rs0 : List Ty)
    (h : (ResultList.parseSemiFunctionType
        ⟨Token.l_paren :: Token.type a :: Token.r_paren :: Token.arrow :: Token.l_paren :: toks, ds⟩
        a0 rs0).result = ParseResult.failure) :
    (ResultList.parseSemiFunctionType
        ⟨Token.l_paren :: Token.type a :: Token.r_paren :: Token.arrow :: Token.l_paren :: toks, ds⟩
        a0 rs0).resultTypes = [] := by
  rcases hp : parseTypeListTokens toks rs0 with ⟨ok, rs, rem⟩
  cases ok
  · rw [list_parse_list_fail a toks rem ds a0 rs0 rs hp]
  · by_cases hrem : rem.head? = some Token.r_paren
    · rcases rem with _ | ⟨t, rem⟩
      · simp at hrem
      · simp only [List.head?_cons, Option.some.injEq] at hrem
        subst hrem
        rw [list_parse_list a toks rem ds a0 rs0 rs hp] at h
        simp at h
    · rw [list_parse_list_unclosed a toks rem ds a0 rs0 rs hp hrem]

theorem list_parse_failure_outside_list (s : List (Token Ty)) (ds : List Diagnostic)
    (a0 : Option Ty) (rs0 : List Ty)
    (hform : ∀ (a : Ty) (toks : List (Token Ty)),
      s ≠ Token.l_paren :: Token.type a :: Token.r_paren :: Token.arrow :: Token.l_paren :: toks) :
    (ResultList.parseSemiFunctionType ⟨s, ds⟩ a0 rs0).result = ParseResult.success
    ∨ (ResultList.parseSemiFunctionType ⟨s, ds⟩ a0 rs0).resultTypes = rs0 := by
  rcases s with _ | ⟨t1, s⟩
  · simp [ResultList.parseSemiFunctionType, parseOptionalLParen, parseType,
      ParseResult.failed, ParseResult.succeeded]
  cases t1 <;> try (simp [ResultList.parseSemiFunctionType, parseOptionalLParen, parseType,
      ParseResult.failed, ParseResult.succeeded]; done)
  rcases s with _ | ⟨t2, s⟩
  · simp [ResultList.parseSemiFunctionType, parseOptionalLParen, parseType,
      ParseResult.failed, ParseResult.succeeded]
  cases t2 <;> try (simp [ResultList.parseSemiFunctionType, parseOptionalLParen, parseType,
      ParseResult.failed, ParseResult.succeeded]; done)
  rename_i a
  rcases s with _ | ⟨t3, s⟩
  · simp [ResultList.parseSemiFunctionType, parseOptionalLParen, parseType, parseRParen,
      ParseResult.failed, ParseResult.succeeded]
  cases t3 <;> try (simp [ResultList.parseSemiFunctionType, parseOptionalLParen, parseType,
      parseRParen, ParseResult.failed, ParseResult.succeeded]; done)
  rcases s with _ | ⟨t4, s⟩
  · simp [ResultList.parseSemiFunctionType, parseOptionalLParen, parseType, parseRParen,
      parseArrow, ParseResult.failed, ParseResult.succeeded]
  cases t4 <;> try (simp [ResultList.parseSemiFunctionType, parseOptionalLParen, parseType,
      parseRParen, parseArrow, ParseResult.failed, ParseResult.succeeded]; done)
  rcases s with _ | ⟨t5, s⟩
  · simp [ResultList.parseSemiFunctionType, parseOptionalLParen, parseType, parseRParen,
      parseArrow, OpAsmParser.emitError, ParseResult.failed, ParseResult.succeeded]
  cases t5 <;> try (simp [ResultList.parseSemiFunctionType, parseOptionalLParen, parseType,
      parseRParen, parseArrow, OpAsmParser.emitError, ParseResult.failed,
      ParseResult.succeeded]; done)
  exact absurd rfl (hform a s)

/-! ## The claims on the post-check, the order of the checks and the two parsers -/

/-- C12, as stated, fails: under the result-mandatory policy and on the stream
`0`, a bare Type, the post-check is the statement that returns failure; the
parser without it goes on to read the Type and succeeds. -/
theorem C12_post_check_counterexample :
    SingleResult.postCheckFails (⟨[Token.type 0], []⟩ : OpAsmParser Nat) false = true
    ∧ SingleResult.parseSemiFunctionType (⟨[Token.type 0], []⟩ : OpAsmParser Nat)
        none none false
      = ⟨ParseResult.failure, none, none, ⟨[Token.type 0], [Diagnostic.expectedLParen]⟩⟩
    ∧ SingleResult.parseSemiFunctionTypeWithoutPostCheck
        (⟨[Token.type 0], []⟩ : OpAsmParser Nat) none none false
      = ⟨ParseResult.success, some 0, none, ⟨[], [Diagnostic.expectedLParen]⟩⟩ := by
  refine ⟨by decide, by decide, by decide⟩

/-- C12, amended. The post-check of line 21 is live: it returns failure exactly
when `resultOptional` is clear and the stream does not begin with `(`.  The
parser without the check has the same whole outcome as the original when
`resultOptional` is set or the stream begins with `(`, and the same result,
argument type and result type when `resultOptional` is clear and the stream does
not begin with a Type.  When `resultOptional` is clear and the stream begins
with a Type, the original fails with both types null and nothing consumed, while
the parser without the check consumes the Type and succeeds with it as the
argument type. -/
theorem C12_post_check_amended (s : List (Token Ty)) (ds : List Diagnostic)
    (a0 r0 : Option Ty) (resultOptional : Bool) :
    (SingleResult.postCheckFails ⟨s, ds⟩ resultOptional = true ↔
      resultOptional = false ∧ s.head? ≠ some Token.l_paren)
    ∧ (resultOptional = true ∨ s.head? = some Token.l_paren →
        SingleResult.parseSemiFunctionTypeWithoutPostCheck ⟨s, ds⟩ a0 r0 resultOptional
          = SingleResult.parseSemiFunctionType ⟨s, ds⟩ a0 r0 resultOptional)
    ∧ (resultOptional = false → (∀ t : Ty, s.head? ≠ some (Token.type t)) →
        (SingleResult.parseSemiFunctionTypeWithoutPostCheck ⟨s, ds⟩ a0 r0
            resultOptional).result
          = (SingleResult.parseSemiFunctionType ⟨s, ds⟩ a0 r0 resultOptional).result
        ∧ (SingleResult.parseSemiFunctionTypeWithoutPostCheck ⟨s, ds⟩ a0 r0
            resultOptional).argumentType
          = (SingleResult.parseSemiFunctionType ⟨s, ds⟩ a0 r0 resultOptional).argumentType
        ∧ (SingleResult.parseSemiFunctionTypeWithoutPostCheck ⟨s, ds⟩ a0 r0
            resultOptional).resultType
          = (SingleResult.parseSemiFunctionType ⟨s, ds⟩ a0 r0 resultOptional).resultType)
    ∧ (resultOptional = false → ∀ (t : Ty) (rest : List (Token Ty)), s = Token.type t :: rest →
        SingleResult.parseSemiFunctionType ⟨s, ds⟩ a0 r0 resultOptional
          = ⟨ParseResult.failure, none, none, ⟨s, ds ++ [Diagnostic.expectedLParen]⟩⟩
        ∧ SingleResult.parseSemiFunctionTypeWithoutPostCheck ⟨s, ds⟩ a0 r0 resultOptional
          = ⟨ParseResult.success, some t, none,
              ⟨rest, ds ++ [Diagnostic.expectedLParen]⟩⟩) := by
  refine ⟨?_, ?_, ?_, ?_⟩
  · rcases s with _ | ⟨t, s⟩
    · cases resultOptional <;>
        simp [SingleResult.postCheckFails, parseLParen, parseOptionalLParen,
          ParseResult.succeeded]
    · cases t <;> cases resultOptional <;>
        simp [SingleResult.postCheckFails, parseLParen, parseOptionalLParen,
          ParseResult.succeeded]
  · intro h
    rcases s with _ | ⟨t, s⟩
    · cases resultOptional
      · simp at h
      · simp [SingleResult.parseSemiFunctionType,
          SingleResult.parseSemiFunctionTypeWithoutPostCheck]
    · cases resultOptional
      · cases t <;> simp at h
        simp [SingleResult.parseSemiFunctionType,
          SingleResult.parseSemiFunctionTypeWithoutPostCheck, parseLParen,
          ParseResult.succeeded]
      · simp [SingleResult.parseSemiFunctionType,
          SingleResult.parseSemiFunctionTypeWithoutPostCheck]
  · intro hro hnt
    subst hro
    rcases s with _ | ⟨t, s⟩
    · simp [SingleResult.parseSemiFunctionType,
        SingleResult.parseSemiFunctionTypeWithoutPostCheck, parseLParen, parseType,
        OpAsmParser.emitError, ParseResult.succeeded, ParseResult.failed]
    · cases t <;>
        simp_all [SingleResult.parseSemiFunctionType,
          SingleResult.parseSemiFunctionTypeWithoutPostCheck, parseLParen, parseType,
          OpAsmParser.emitError, ParseResult.succeeded, ParseResult.failed]
  · intro hro t rest hs
    subst hro hs
    constructor
    · simp [SingleResult.parseSemiFunctionType, parseLParen, OpAsmParser.emitError,
        ParseResult.succeeded]
    · simp [SingleResult.parseSemiFunctionTypeWithoutPostCheck, parseLParen, parseType,
        OpAsmParser.emitError, ParseResult.succeeded, ParseResult.failed]

/-- C13. Both parsers are fail-fast after a delimited argument.  On a stream
beginning `( a`, with any `resultOptional` and any values on entry: if `)` is
absent both fail with the missing-`)` diagnostic; if `)` is there and `->` is
absent both fail with the missing-arrow diagnostic; if both are there and no
result follows (no Type, and for the list-result parser no `(` either) both fail
with the missing-type diagnostic.  When the list-result parser finds `(` after the arrow,
a failure of `parseTypeList` ends the call without a look at the closing `)`,
and a missing closing `)` fails with the missing-`)` diagnostic.  In each case
the stream on exit is the one the failing operation left: exactly one diagnostic
more than on entry and no token consumed after the last element that was
present. -/
theorem C13_fail_fast (a : Ty) (rest : List (Token Ty)) (ds : List Diagnostic)
    (a0 r0 : Option Ty) (rs0 : List Ty) (resultOptional : Bool) :
    (rest.head? ≠ some Token.r_paren →
      SingleResult.parseSemiFunctionType ⟨Token.l_paren :: Token.type a :: rest, ds⟩
          a0 r0 resultOptional
        = ⟨ParseResult.failure, some a, none, ⟨rest, ds ++ [Diagnostic.expectedRParen]⟩⟩
      ∧ ResultList.parseSemiFunctionType ⟨Token.l_paren :: Token.type a :: rest, ds⟩ a0 rs0
        = ⟨ParseResult.failure, some a, rs0, ⟨rest, ds ++ [Diagnostic.expectedRParen]⟩⟩)
    ∧ (∀ rest1, rest = Token.r_paren :: rest1 → rest1.head? ≠ some Token.arrow →
      SingleResult.parseSemiFunctionType ⟨Token.l_paren :: Token.type a :: rest, ds⟩
          a0 r0 resultOptional
        = ⟨ParseResult.failure, some a, none, ⟨rest1, ds ++ [Diagnostic.expectedArrow]⟩⟩
      ∧ ResultList.parseSemiFunctionType ⟨Token.l_paren :: Token.type a :: rest, ds⟩ a0 rs0
        = ⟨ParseResult.failure, some a, rs0, ⟨rest1, ds ++ [Diagnostic.expectedArrow]⟩⟩)
    ∧ (∀ rest2, rest = Token.r_paren :: Token.arrow :: rest2 →
        (∀ t : Ty, rest2.head? ≠ some (Token.type t)) →
      SingleResult.parseSemiFunctionType ⟨Token.l_paren :: Token.type a :: rest, ds⟩
          a0 r0 resultOptional
        = ⟨ParseResult.failure, some a, none, ⟨rest2, ds ++ [Diagnostic.expectedType]⟩⟩
      ∧ (rest2.head? ≠ some Token.l_paren →
        ResultList.parseSemiFunctionType ⟨Token.l_paren :: Token.type a :: rest, ds⟩ a0 rs0
          = ⟨ParseResult.failure, some a, rs0,
              ⟨rest2, ds ++ [Diagnostic.expectedType]⟩⟩))
    ∧ (∀ toks rs rem, rest = Token.r_paren :: Token.arrow :: Token.l_paren :: toks →
        parseTypeListTokens toks rs0 = (false, rs, rem) →
        ResultList.parseSemiFunctionType ⟨Token.l_paren :: Token.type a :: rest, ds⟩ a0 rs0
          = ⟨ParseResult.failure, some a, [], ⟨rem, ds ++ [Diagnostic.expectedType]⟩⟩)
    ∧ (∀ toks rs rem, rest = Token.r_paren :: Token.arrow :: Token.l_paren :: toks →
        parseTypeListTokens toks rs0 = (true, rs, rem) → rem.head? ≠ some Token.r_paren →
        ResultList.parseSemiFunctionType ⟨Token.l_paren :: Token.type a :: rest, ds⟩ a0 rs0
          = ⟨ParseResult.failure, some a, [], ⟨rem, ds ++ [Diagnostic.expectedRParen]⟩⟩) := by
  refine ⟨?_, ?_, ?_, ?_, ?_⟩
  rotate_left 3
  · intro toks rs rem hr h
    subst hr
    exact list_parse_list_fail a toks rem ds a0 rs0 rs h
  · intro toks rs rem hr h hrem
    subst hr
    exact list_parse_list_unclosed a toks rem ds a0 rs0 rs h hrem
  · intro h
    rcases rest with _ | ⟨t, rest⟩
    · cases resultOptional <;>
        simp [SingleResult.parseSemiFunctionType, ResultList.parseSemiFunctionType,
          parseOptionalLParen, parseLParen, parseType, parseRParen, OpAsmParser.emitError,
          ParseResult.succeeded, ParseResult.failed, failure]
    · cases t <;> cases resultOptional <;>
        simp_all [SingleResult.parseSemiFunctionType, ResultList.parseSemiFunctionType,
          parseOptionalLParen, parseLParen, parseType, parseRParen, OpAsmParser.emitError,
          ParseResult.succeeded, ParseResult.failed, failure]
  · intro rest1 hr h
    subst hr
    rcases rest1 with _ | ⟨t, rest1⟩
    · cases resultOptional <;>
        simp [SingleResult.parseSemiFunctionType, ResultList.parseSemiFunctionType,
          parseOptionalLParen, parseLParen, parseType, parseRParen, parseArrow,
          OpAsmParser.emitError, ParseResult.succeeded, ParseResult.failed, failure]
    · cases t <;> cases resultOptional <;>
        simp_all [SingleResult.parseSemiFunctionType, ResultList.parseSemiFunctionType,
          parseOptionalLParen, parseLParen, parseType, parseRParen, parseArrow,
          OpAsmParser.emitError, ParseResult.succeeded, ParseResult.failed, failure]
  · intro rest2 hr h
    subst hr
    rcases rest2 with _ | ⟨t, rest2⟩
    · cases resultOptional <;>
        simp [SingleResult.parseSemiFunctionType, ResultList.parseSemiFunctionType,
          parseOptionalLParen, parseLParen, parseType, parseRParen, parseArrow,
          OpAsmParser.emitError, ParseResult.succeeded, ParseResult.failed, failure]
    · cases t <;> cases resultOptional <;>
        simp_all [SingleResult.parseSemiFunctionType, ResultList.parseSemiFunctionType,
          parseOptionalLParen, parseLParen, parseType, parseRParen, parseArrow,
          OpAsmParser.emitError, ParseResult.succeeded, ParseResult.failed, failure]

/-- C14. The list-result parser consumes exactly the printed clause: on the tokens
of what the printer emits for `a` and `rs`, followed by any tokens `t`, it
succeeds with argument type `a` and results `rs`, and leaves exactly `t` in the
stream. -/
theorem C14_consumes_exactly_the_clause (a : Ty) (rs : List Ty) (t : List (Token Ty))
    (a0 : Option Ty) (ds : List Diagnostic) :
    ResultList.parseSemiFunctionType
        ⟨lex (ResultList.printSemiFunctionType ⟨[]⟩ a rs).out ++ t, ds⟩ a0 []
      = ⟨ParseResult.success, some a, rs, ⟨t, ds⟩⟩ := by
  rcases rs with _ | ⟨r1, _ | ⟨r2, rs⟩⟩
  · rw [lex_print_nil]
    exact list_parse_bare a t ds a0 []
  · rw [lex_print_single]
    simpa using list_parse_one a r1 t ds a0 []
  · rw [lex_print_many]
    have h := parseTypeListTokens_typeListTokens (r2 :: rs) r1 (Token.r_paren :: t) []
      (by simp)
    have h2 := list_parse_list a (typeListTokens (r1 :: r2 :: rs) ++ Token.r_paren :: t) t ds
      a0 [] (r1 :: r2 :: rs) (by simpa using h)
    simpa using h2

/-- C15. The list-result parser extends the optional single-result parser: on
every stream on which the single-result parser with `resultOptional` set
succeeds, the list-result parser entered with an empty vector succeeds too, with
the same (non-null) argument type, with no result when the single result is
null and that one result otherwise, and with the same stream on exit. -/
theorem C15_list_extends_single (parser : OpAsmParser Ty) (a0 r0 a0' : Option Ty)
    (hres : (SingleResult.parseSemiFunctionType parser a0 r0 true).result
      = ParseResult.success) :
    (SingleResult.parseSemiFunctionType parser a0 r0 true).argumentType ≠ none
    ∧ ResultList.parseSemiFunctionType parser a0' []
      = ⟨ParseResult.success,
          (SingleResult.parseSemiFunctionType parser a0 r0 true).argumentType,
          (SingleResult.parseSemiFunctionType parser a0 r0 true).resultType.toList,
          (SingleResult.parseSemiFunctionType parser a0 r0 true).parser⟩ := by
  obtain ⟨s, ds⟩ := parser
  rcases single_parse_success_inv ⟨s, ds⟩ a0 r0 true hres with
    ⟨-, a, rest, hs⟩ | ⟨a, b, rest, hs⟩
  · simp only at hs
    subst hs
    rw [single_parse_bare, list_parse_bare]
    simp
  · simp only at hs
    subst hs
    rw [single_parse_arrow, list_parse_one]
    simp

/-- C17. On every stream whose first token is `(`, the single-result parser has
the same whole outcome (result, argument type, result type, stream on exit) with
`resultOptional` set as with `resultOptional` clear. -/
theorem C17_flag_irrelevant_after_paren (rest : List (Token Ty)) (ds : List Diagnostic)
    (a0 r0 : Option Ty) :
    SingleResult.parseSemiFunctionType ⟨Token.l_paren :: rest, ds⟩ a0 r0 true
      = SingleResult.parseSemiFunctionType ⟨Token.l_paren :: rest, ds⟩ a0 r0 false := by
  simp [SingleResult.parseSemiFunctionType, parseOptionalLParen, parseLParen,
    ParseResult.succeeded]

/-- C13, at `( 0 , ) -> 1`: the `)` is absent where it is required, and the
`) -> 1` further on is left in the stream. -/
theorem C13_fail_fast_witness :
    SingleResult.parseSemiFunctionType
        (⟨[Token.l_paren, Token.type 0, Token.comma, Token.r_paren, Token.arrow, Token.type 1],
          []⟩ : OpAsmParser Nat) none none true
      = ⟨ParseResult.failure, some 0, none,
          ⟨[Token.comma, Token.r_paren, Token.arrow, Token.type 1],
            [Diagnostic.expectedRParen]⟩⟩
    ∧ ResultList.parseSemiFunctionType
        (⟨[Token.l_paren, Token.type 0, Token.comma, Token.r_paren, Token.arrow, Token.type 1],
          []⟩ : OpAsmParser Nat) none []
      = ⟨ParseResult.failure, some 0, [],
          ⟨[Token.comma, Token.r_paren, Token.arrow, Token.type 1],
            [Diagnostic.expectedRParen]⟩⟩ :=
  (C13_fail_fast 0 [Token.comma, Token.r_paren, Token.arrow, Token.type 1] [] none none []
    true).1 (by decide)

/-- C15, at `( 0 ) -> 1` followed by a comma. -/
theorem C15_list_extends_single_witness :
    (SingleResult.parseSemiFunctionType
        (⟨[Token.l_paren, Token.type 0, Token.r_paren, Token.arrow, Token.type 1, Token.comma],
          []⟩ : OpAsmParser Nat) none none true).argumentType ≠ none
    ∧ ResultList.parseSemiFunctionType
        (⟨[Token.l_paren, Token.type 0, Token.r_paren, Token.arrow, Token.type 1, Token.comma],
          []⟩ : OpAsmParser Nat) none []
      = ⟨ParseResult.success,
          (SingleResult.parseSemiFunctionType
            (⟨[Token.l_paren, Token.type 0, Token.r_paren, Token.arrow, Token.type 1,
              Token.comma], []⟩ : OpAsmParser Nat) none none true).argumentType,
          (SingleResult.parseSemiFunctionType
            (⟨[Token.l_paren, Token.type 0, Token.r_paren, Token.arrow, Token.type 1,
              Token.comma], []⟩ : OpAsmParser Nat) none none true).resultType.toList,
          (SingleResult.parseSemiFunctionType
            (⟨[Token.l_paren, Token.type 0, Token.r_paren, Token.arrow, Token.type 1,
              Token.comma], []⟩ : OpAsmParser Nat) none none true).parser⟩ :=
  C15_list_extends_single _ none none none (by decide)

/-- C16. The list-result parser drops the argument type it is given but keeps
the result vector it is given: the outcome does not depend on the argument type
on entry, which is null on exit when no argument type can be read; on success
the vector on exit is the vector on entry followed by the parsed types in stream
order; on a failure of a stream that does not begin `( a ) -> (` the vector on
exit is the vector on entry; and on a failure of a stream that begins
`( a ) -> (`, that is a failure of the parenthesised list or of its closing `)`,
the vector on exit is empty. -/
theorem C16_result_sequence_frame (s : List (Token Ty)) (ds : List Diagnostic)
    (a0 : Option Ty) (rs0 : List Ty) :
    (∀ a0' : Option Ty, ResultList.parseSemiFunctionType ⟨s, ds⟩ a0' rs0
        = ResultList.parseSemiFunctionType ⟨s, ds⟩ a0 rs0)
    ∧ ((∀ t : Ty, s.head? ≠ some (Token.type t)) → s.head? ≠ some Token.l_paren →
        ResultList.parseSemiFunctionType ⟨s, ds⟩ a0 rs0
          = ⟨ParseResult.failure, none, rs0, ⟨s, ds ++ [Diagnostic.expectedType]⟩⟩)
    ∧ ((ResultList.parseSemiFunctionType ⟨s, ds⟩ a0 rs0).result = ParseResult.success →
        ∃ (a : Ty) (parsed : List Ty) (rest : List (Token Ty)),
          ((parsed = [] ∧ s = Token.type a :: rest)
            ∨ (∃ b, parsed = [b] ∧ s = Token.l_paren :: Token.type a :: Token.r_paren ::
                Token.arrow :: Token.type b :: rest)
            ∨ (∃ b bs, parsed = b :: bs ∧ s = Token.l_paren :: Token.type a ::
                Token.r_paren :: Token.arrow :: Token.l_paren ::
                  (typeListTokens (b :: bs) ++ Token.r_paren :: rest)))
          ∧ ResultList.parseSemiFunctionType ⟨s, ds⟩ a0 rs0
            = ⟨ParseResult.success, some a, rs0 ++ parsed, ⟨rest, ds⟩⟩)
    ∧ ((ResultList.parseSemiFunctionType ⟨s, ds⟩ a0 rs0).result = ParseResult.failure →
        (∀ (a : Ty) (toks : List (Token Ty)), s ≠ Token.l_paren :: Token.type a ::
          Token.r_paren :: Token.arrow :: Token.l_paren :: toks) →
        (ResultList.parseSemiFunctionType ⟨s, ds⟩ a0 rs0).resultTypes = rs0)
    ∧ ((ResultList.parseSemiFunctionType ⟨s, ds⟩ a0 rs0).result = ParseResult.failure →
        ∀ (a : Ty) (toks : List (Token Ty)), s = Token.l_paren :: Token.type a ::
          Token.r_paren :: Token.arrow :: Token.l_paren :: toks →
        (ResultList.parseSemiFunctionType ⟨s, ds⟩ a0 rs0).resultTypes = []) := by
  refine ⟨?_, ?_, ?_, ?_, ?_⟩
  · intro a0'
    simp only [ResultList.parseSemiFunctionType, assign]
  · intro hnt hnp
    rcases s with _ | ⟨t, s⟩
    · simp [ResultList.parseSemiFunctionType, parseOptionalLParen, parseType,
        OpAsmParser.emitError, ParseResult.failed, ParseResult.succeeded]
    · cases t <;>
        simp_all [ResultList.parseSemiFunctionType, parseOptionalLParen, parseType,
          OpAsmParser.emitError, ParseResult.failed, ParseResult.succeeded]
  · intro hres
    rcases list_parse_success_inv ⟨s, ds⟩ a0 rs0 hres with
      ⟨a, rest, hs⟩ | ⟨a, b, rest, hs⟩ | ⟨a, toks, rs, rest, hs, hl⟩
    · simp only at hs
      subst hs
      exact ⟨a, [], rest, Or.inl ⟨rfl, rfl⟩, by rw [list_parse_bare]; simp⟩
    · simp only at hs
      subst hs
      exact ⟨a, [b], rest, Or.inr (Or.inl ⟨b, rfl, rfl⟩), by rw [list_parse_one]⟩
    · simp only at hs
      subst hs
      obtain ⟨t, ts, h1, h2, -⟩ := parseTypeListTokens_success toks rs0 rs _ hl
      subst h1 h2
      exact ⟨a, t :: ts, rest, Or.inr (Or.inr ⟨t, ts, rfl, rfl⟩),
        list_parse_list a _ rest ds a0 rs0 _ hl⟩
  · intro hfail hform
    rcases list_parse_failure_outside_list s ds a0 rs0 hform with h | h
    · rw [h] at hfail
      simp at hfail
    · exact h
  · intro hfail a toks hs
    subst hs
    exact list_parse_failure_in_list a toks ds a0 rs0 hfail

/-- C16, with `[7]` in the vector on entry. -/
theorem C16_result_sequence_frame_witness :
    (ResultList.parseSemiFunctionType
        (⟨[Token.l_paren, Token.type 0, Token.r_paren, Token.arrow, Token.l_paren, Token.type 1,
          Token.comma, Token.type 2, Token.r_paren], []⟩ : OpAsmParser Nat) (some 9) [7])
      = ⟨ParseResult.success, some 0, [7, 1, 2], ⟨[], []⟩⟩
    ∧ (ResultList.parseSemiFunctionType
        (⟨[Token.l_paren, Token.type 0, Token.r_paren, Token.arrow, Token.comma], []⟩ :
          OpAsmParser Nat) (some 9) [7]).resultTypes = [7]
    ∧ (ResultList.parseSemiFunctionType
        (⟨[Token.l_paren, Token.type 0, Token.r_paren, Token.arrow, Token.l_paren, Token.type 1,
          Token.comma], []⟩ : OpAsmParser Nat) (some 9) [7]).resultTypes = []
    ∧ (ResultList.parseSemiFunctionType
        (⟨[Token.comma], []⟩ : OpAsmParser Nat) (some 9) [7]).argumentType = none :=
  ⟨by decide,
   (C16_result_sequence_frame
      [Token.l_paren, Token.type 0, Token.r_paren, Token.arrow, Token.comma] [] (some 9)
      [7]).2.2.2.1 (by decide) (by intro a toks h; simp at h),
   (C16_result_sequence_frame
      [Token.l_paren, Token.type 0, Token.r_paren, Token.arrow, Token.l_paren, Token.type 1,
        Token.comma] [] (some 9) [7]).2.2.2.2 (by decide) 0 [Token.type 1, Token.comma] rfl,
   by decide⟩

end mlir

namespace llvm

theorem string_isEmpty_eq_false (s : String) : s.isEmpty = false ↔ s ≠ "" := by
  rw [Ne, ← String.isEmpty_iff]
  simp

/-- C11. The derived queries of `CoverageViewOptions` are non-empty checks of
their own field: `hasOutputDirectory` holds exactly when `ShowOutputDirectory`
is not empty, `hasDemangler` exactly when `DemanglerOpts` is not empty,
`hasProjectTitle` exactly when `ProjectTitle` is not empty and `hasCreatedTime`
exactly when `CreatedTimeStr` is not empty; and each gives the same answer on any
two records that agree on that field.  The members are `const`: each is a
function of the record that returns a `bool` and no record. -/
theorem C11_derived_queries (o : CoverageViewOptions) :
    (o.hasOutputDirectory = true ↔ o.ShowOutputDirectory ≠ "")
    ∧ (o.hasDemangler = true ↔ o.DemanglerOpts ≠ [])
    ∧ (o.hasProjectTitle = true ↔ o.ProjectTitle ≠ "")
    ∧ (o.hasCreatedTime = true ↔ o.CreatedTimeStr ≠ "")
    ∧ (∀ o' : CoverageViewOptions, o'.ShowOutputDirectory = o.ShowOutputDirectory →
        o'.hasOutputDirectory = o.hasOutputDirectory)
    ∧ (∀ o' : CoverageViewOptions, o'.DemanglerOpts = o.DemanglerOpts →
        o'.hasDemangler = o.hasDemangler)
    ∧ (∀ o' : CoverageViewOptions, o'.ProjectTitle = o.ProjectTitle →
        o'.hasProjectTitle = o.hasProjectTitle)
    ∧ (∀ o' : CoverageViewOptions, o'.CreatedTimeStr = o.CreatedTimeStr →
        o'.hasCreatedTime = o.hasCreatedTime) := by
  refine ⟨?_, ?_, ?_, ?_, ?_, ?_, ?_, ?_⟩
  · simp [CoverageViewOptions.hasOutputDirectory, string_isEmpty_eq_false]
  · simp [CoverageViewOptions.hasDemangler, List.isEmpty_iff]
  · simp [CoverageViewOptions.hasProjectTitle, string_isEmpty_eq_false]
  · simp [CoverageViewOptions.hasCreatedTime, string_isEmpty_eq_false]
  · intro o' h; simp [CoverageViewOptions.hasOutputDirectory, h]
  · intro o' h; simp [CoverageViewOptions.hasDemangler, h]
  · intro o' h; simp [CoverageViewOptions.hasProjectTitle, h]
  · intro o' h; simp [CoverageViewOptions.hasCreatedTime, h]

/-- C11, at `exampleOptions`: an output directory and a project title are set,
a demangler and a created time are not. -/
theorem C11_derived_queries_witness :
    exampleOptions.hasOutputDirectory = true ∧ exampleOptions.hasDemangler = false
    ∧ exampleOptions.hasProjectTitle = true ∧ exampleOptions.hasCreatedTime = false := by
  have h := C11_derived_queries exampleOptions
  refine ⟨h.1.2 (by decide), ?_, h.2.2.1.2 (by decide), ?_⟩
  · decide
  · decide

end llvm
